import Mathlib

/-!
Verification development for the pro_buddy goal-journey graph engine
(`backend/app/routers/goal_journey.py`, `backend/app/services/journey_generator.py`,
`backend/app/models/goal_journey.py`).

The Python code is shallowly embedded: each router handler / service method
becomes a pure Lean function on an explicit journey value.  Datetimes are
modelled as natural-number day counts passed in as a `now` parameter
(`timedelta.days` of the difference of two such stamps is their integer
difference).  Python floats are modelled as rationals.  Fallible handlers
return `Except JourneyError`; raising `HTTPException` is the `.error` case, so
"no mutation on failure" is by construction and the theorems concentrate on
which error is raised and what a successful result looks like.
-/

namespace ProBuddy

/-- `StepStatus` enum of `models/goal_journey.py`. -/
inductive StepStatus where
  | locked
  | available
  | inProgress
  | completed
  | skipped
  | alternative
deriving DecidableEq, Repr

/-- `PathType` enum of `models/goal_journey.py`. -/
inductive PathType where
  | main
  | alternative
  | completed
deriving DecidableEq, Repr

/-- Values stored in a step's free-form `metadata` dict.  The engine only ever
stores the string `selected_path_step_id` and the list-of-strings `tips`, so
those two shapes suffice. -/
inductive MetaVal where
  | str (s : String)
  | strList (l : List String)
deriving DecidableEq, Repr

/-- `MapPosition` (x, y in [0,1], layer).  Carries no logic; floats become
rationals. -/
structure MapPosition where
  x : ℚ
  y : ℚ
  layer : Nat
deriving DecidableEq, Repr

/-- `GoalStep` of `models/goal_journey.py`.  `metadata` is a Python dict in
insertion order, modelled as an association list. -/
structure GoalStep where
  id : String
  journey_id : String
  title : String
  custom_title : Option String
  description : String
  order_index : Int
  status : StepStatus
  prerequisites : List String
  alternatives : List String
  started_at : Option Nat
  completed_at : Option Nat
  notes : List String
  metadata : Option (List (String × MetaVal))
  position : MapPosition
  path_type : PathType
  estimated_days : Int
  actual_days_spent : Option Int
  created_at : Nat
deriving DecidableEq, Repr

/-- `GoalStep.is_on_main_path` property: `path_type in (MAIN, COMPLETED)`. -/
def GoalStep.is_on_main_path (s : GoalStep) : Bool :=
  s.path_type == PathType.main || s.path_type == PathType.completed

/-- `GoalJourney` of `models/goal_journey.py`. -/
structure GoalJourney where
  id : String
  user_id : String
  goal_id : Option String
  goal_content : String
  goal_reason : Option String
  steps : List GoalStep
  current_step_index : Int
  overall_progress : ℚ
  created_at : Nat
  updated_at : Option Nat
  journey_started_at : Nat
  is_ai_generated : Bool
  ai_notes : Option String
  map_width : ℚ
  map_height : ℚ
deriving DecidableEq, Repr

/-- Errors a router handler can raise.  `notFound` is HTTP 404 (journey/step
absent), `wrongJourney` the 400 "Chosen step must belong to the same journey",
`invalidChoice` the three 400s of `choose_path` that the spec groups as
InvalidChoice. -/
inductive JourneyError where
  | notFound
  | wrongJourney
  | invalidChoice
deriving DecidableEq, Repr

/-- Python dict comprehension `{s.id: s for s in steps}`: a later duplicate id
overwrites an earlier one, so lookup returns the last matching step. -/
def stepById (steps : List GoalStep) (sid : String) : Option GoalStep :=
  steps.reverse.find? (fun s => s.id == sid)

/-- Python `sorted(steps, key=lambda s: s.order_index)` (a stable sort). -/
def sortSteps (steps : List GoalStep) : List GoalStep :=
  List.insertionSort (fun a b => a.order_index ≤ b.order_index) steps

/-- Python dict assignment `d[k] = v`: overwrite in place if the key exists,
else append (dicts preserve insertion order). -/
def dictInsert (l : List (String × MetaVal)) (k : String) (v : MetaVal) :
    List (String × MetaVal) :=
  if l.any (fun p => p.1 == k) then
    l.map (fun p => if p.1 == k then (k, v) else p)
  else l ++ [(k, v)]

/-! ### Progress Calculator — `_update_journey_progress` (routers/goal_journey.py lines 73-101) -/

/-- The `for i, step in enumerate(...)` loop of `_update_journey_progress`:
`i` is the running position, `acc` the running `current_index`; the loop
breaks on the first IN_PROGRESS or AVAILABLE step and otherwise bumps the
accumulator to `i + 1` at every COMPLETED step. -/
def currentIndexLoop : List GoalStep → Int → Int → Int
  | [], _, acc => acc
  | s :: rest, i, acc =>
    if s.status == StepStatus.inProgress then i
    else if s.status == StepStatus.available then i
    else if s.status == StepStatus.completed then currentIndexLoop rest (i + 1) (i + 1)
    else currentIndexLoop rest (i + 1) acc

/-- `_update_journey_progress`: recompute `overall_progress` and
`current_step_index` from step statuses; with no main-path step the journey is
returned unchanged. -/
def update_journey_progress (now : Nat) (j : GoalJourney) : GoalJourney :=
  let main := j.steps.filter (fun s => s.is_on_main_path)
  if main.isEmpty then j
  else
    let completed := (main.filter (fun s => s.status == StepStatus.completed)).length
    let progress : ℚ := (completed : ℚ) / (main.length : ℚ)
    let current := currentIndexLoop (sortSteps main) 0 0
    { j with
      overall_progress := progress
      current_step_index := min current ((main.length : Int) - 1)
      updated_at := some now }

/-! ### Status update — `update_step_status` (routers/goal_journey.py lines 182-255) -/

/-- The unlock scan of `update_step_status`: walk the ordered main-path list,
and at the first position holding `step_id` that still has a successor, return
that successor (the loop's `break` sits inside the `if`, so a match in the
last position keeps scanning). -/
def findNextOf (step_id : String) : List GoalStep → Option GoalStep
  | a :: b :: rest =>
    if a.id == step_id then some b else findNextOf step_id (b :: rest)
  | _ => none

/-- The step rebuild of `update_step_status` (its `GoalStep(**{...})` block):
set the new status, stamp `started_at` (only when moving to IN_PROGRESS and
unset) and `completed_at`, compute `actual_days_spent` (`(now -
started_at).days or 1`, only when completing with a start stamp), and append
the optional note (`update.notes` is falsy for `None` and for `""`). -/
def updateStepFields (now : Nat) (newStatus : StepStatus) (note : Option String)
    (step : GoalStep) : GoalStep :=
  let actual_days : Option Int :=
    if newStatus == StepStatus.completed then
      match step.started_at with
      | some st => some (if (now : Int) - (st : Int) = 0 then 1 else (now : Int) - (st : Int))
      | none => none
    else none
  { step with
    status := newStatus
    started_at :=
      match step.started_at with
      | some t => some t
      | none => if newStatus == StepStatus.inProgress then some now else none
    completed_at :=
      if newStatus == StepStatus.completed then some now else step.completed_at
    actual_days_spent :=
      match actual_days with
      | some d => some d
      | none => step.actual_days_spent
    notes := step.notes ++
      (match note with
       | some n => if n.isEmpty then [] else [n]
       | none => []) }

/-- `update_step_status`: set a step's status (appending an optional note),
and if the new status is COMPLETED unlock the next LOCKED main-path step; then
recompute progress. -/
def update_step_status (now : Nat) (j : GoalJourney) (step_id : String)
    (newStatus : StepStatus) (note : Option String) : Except JourneyError GoalJourney :=
  match j.steps.find? (fun s => s.id == step_id) with
  | none => .error .notFound
  | some step =>
    let updated_step : GoalStep := updateStepFields now newStatus note step
    let updated_steps := j.steps.map (fun s => if s.id == step_id then updated_step else s)
    let updated_steps2 :=
      if newStatus == StepStatus.completed then
        match findNextOf step_id (sortSteps (updated_steps.filter (fun s => s.is_on_main_path))) with
        | some nxt =>
          if nxt.status == StepStatus.locked then
            updated_steps.map (fun s =>
              if s.id == nxt.id then { nxt with status := StepStatus.available } else s)
          else updated_steps
        | none => updated_steps
      else updated_steps
    .ok (update_journey_progress now { j with steps := updated_steps2 })

/-- `update_step_title`: set `custom_title`, bump `updated_at`; no progress
recomputation. -/
def update_step_title (now : Nat) (j : GoalJourney) (step_id : String)
    (custom_title : String) : Except JourneyError GoalJourney :=
  match j.steps.find? (fun s => s.id == step_id) with
  | none => .error .notFound
  | some step =>
    let updated_step : GoalStep := { step with custom_title := some custom_title }
    .ok { j with
          steps := j.steps.map (fun s => if s.id == step_id then updated_step else s)
          updated_at := some now }

/-- `add_step_note`: append one note, bump `updated_at`. -/
def add_step_note (now : Nat) (j : GoalJourney) (step_id : String)
    (note : String) : Except JourneyError GoalJourney :=
  match j.steps.find? (fun s => s.id == step_id) with
  | none => .error .notFound
  | some step =>
    let updated_step : GoalStep := { step with notes := step.notes ++ [note] }
    .ok { j with
          steps := j.steps.map (fun s => if s.id == step_id then updated_step else s)
          updated_at := some now }

/-! ### Path Selection Engine — `choose_path` (routers/goal_journey.py lines 321-478) -/

/-- The adjacency built by `choose_path`: `children_map[prereq_id]` holds, in
step order, the ids of the steps listing `prereq_id` among their
prerequisites; ids that are not step ids get no entry. -/
def childrenMap (steps : List GoalStep) (pid : String) : List String :=
  if (steps.map (fun s => s.id)).contains pid then
    (steps.filter (fun s => s.prerequisites.contains pid)).map (fun s => s.id)
  else []

/-- `collect_reachable`'s worklist loop: pop, skip already-visited ids, push
the children of new ones.  The Python loop terminates because of the visited
guard; here explicit fuel bounds the iteration count instead (each iteration
pops one id, and at most `steps.length * steps.length` pushes can ever happen
because each of the at most `steps.length` distinct visited ids pushes at most
`steps.length` children), so the fuel chosen in `reachSet` never runs out. -/
def reachAux (steps : List GoalStep) : Nat → List String → List String → List String
  | 0, _, visited => visited
  | _ + 1, [], visited => visited
  | fuel + 1, current :: rest, visited =>
    if visited.contains current then reachAux steps fuel rest visited
    else reachAux steps fuel (childrenMap steps current ++ rest) (visited ++ [current])

/-- `collect_reachable(start_id)`: every id reachable from `start_id` along
the children map (the start included).  Python returns a set; the visited
list is used only through membership. -/
def reachSet (steps : List GoalStep) (start_id : String) : List String :=
  reachAux steps ((steps.length + 1) * (steps.length + 1)) [start_id] []

/-- The clean-and-dedupe loop of `choose_path`: drop self-references and
unknown ids, keep the first occurrence of each id, preserve order. -/
def dedupFirst (seen : List String) : List String → List String
  | [] => []
  | x :: xs => if seen.contains x then dedupFirst seen xs else x :: dedupFirst (x :: seen) xs

/-- Branch roots of a decision step: its `alternatives` list when non-empty,
else its direct children, cleaned (no self-reference, no unknown id, no
duplicate, order preserved). -/
def chooseRoots (steps : List GoalStep) (decision : GoalStep) : List String :=
  let raw := if decision.alternatives.isEmpty then childrenMap steps decision.id
             else decision.alternatives
  dedupFirst []
    (raw.filter (fun o => o != decision.id && (steps.map (fun s => s.id)).contains o))

/-- `affected_ids`: the union of the reachable sets of all branch roots
(membership in the concatenation is membership in the union). -/
def affectedIds (steps : List GoalStep) (roots : List String) : List String :=
  roots.flatMap (fun r => reachSet steps r)

/-- Metadata stamp of `choose_path` step 7:
`md["selected_path_step_id"] = chosen_step_id` on a copy of the step's
metadata dict (or a fresh dict). -/
def stampMeta (chosen_step_id : String) (s : GoalStep) : GoalStep :=
  let md := dictInsert (s.metadata.getD []) "selected_path_step_id" (MetaVal.str chosen_step_id)
  { s with metadata := some md }

/-- `choose_path`: resolve branch roots at a decision step, validate the
request, and reclassify every step reachable from a root; then stamp the
decision step's metadata, promote the chosen root when the decision step is
already COMPLETED, and recompute progress. -/
def choose_path (now : Nat) (j : GoalJourney) (step_id chosen_step_id : String) :
    Except JourneyError GoalJourney :=
  let steps := j.steps
  match stepById steps step_id with
  | none => .error .notFound
  | some decision =>
    match stepById steps chosen_step_id with
    | none => .error .notFound
    | some chosen_step =>
      if chosen_step.journey_id ≠ j.id then .error .wrongJourney
      else
        let roots := chooseRoots steps decision
        if roots.length < 2 then .error .invalidChoice
        else if ¬ (chosen_step_id ∈ roots) then .error .invalidChoice
        else
          let affected := affectedIds steps roots
          if affected.any (fun sid =>
              match stepById steps sid with
              | some st => st.status == StepStatus.inProgress || st.status == StepStatus.completed
              | none => false) then .error .invalidChoice
          else
            let chosenSet := reachSet steps chosen_step_id
            let pass1 := steps.map (fun s =>
              if s.id ∈ affected then
                if s.id ∈ chosenSet then
                  { s with path_type := PathType.main
                           status := if s.status == StepStatus.alternative then
                                       StepStatus.locked
                                     else s.status }
                else
                  { s with path_type := PathType.alternative
                           status := StepStatus.alternative }
              else s)
            let pass2 := pass1.map (fun s =>
              if s.id == decision.id then stampMeta chosen_step_id s else s)
            let pass3 :=
              if decision.status == StepStatus.completed then
                pass2.map (fun s =>
                  if s.id == chosen_step_id &&
                     (s.status == StepStatus.locked || s.status == StepStatus.alternative) then
                    { s with status := StepStatus.available }
                  else s)
              else pass2
            .ok (update_journey_progress now { j with steps := pass3, updated_at := some now })

/-! ### Generator Adapter — `journey_generator.py`

The call into Gemini is external; its outcome is a parameter (`GenOutcome`).
UUID minting is abstracted into a journey id and a per-index step id supply.
-/

/-- One entry of the untrusted `steps` JSON array handed back by the
generator.  `none` in an `Option` field models a missing key (or, where
noted, a value of the wrong JSON type). -/
structure GenStepData where
  /-- `title` key; `none` = missing. -/
  title : Option String
  /-- `description` key; `none` = missing or `None` (both yield `""`). -/
  description : Option String
  /-- `estimated_days` key after `int(...)` coercion; `none` = missing,
  `None`, or a value `int()` rejects (all yield the default 14). -/
  estimated_days : Option Int
  /-- `path_type` key; `none` = missing (default `"main"`). -/
  path_type : Option String
  /-- `prerequisites` key (string entries; non-string entries are dropped by
  the `isinstance` check and are not modelled). -/
  prerequisites : List String
  /-- `alternatives` key, same convention. -/
  alternatives : List String
  /-- `metadata` key when it is a dict. -/
  metadata : Option (List (String × MetaVal))
  /-- `tips` key; `none` = present but not a list (skipped); a missing key
  defaults to `some []`. -/
  tips : Option (List String)
deriving DecidableEq, Repr

/-- ASCII lowering, enough for `.lower()` on the inputs at hand. -/
def asciiLower (c : Char) : Char :=
  if 'A' ≤ c ∧ c ≤ 'Z' then Char.ofNat (c.toNat + 32) else c

def isPySpace (c : Char) : Bool :=
  c == ' ' || c == '\t' || c == '\n' || c == '\r'

/-- `str(x).lower().strip()` as applied to the `path_type` flag. -/
def lowerStrip (s : String) : String :=
  let cs := (s.toList.map asciiLower).dropWhile isPySpace
  String.mk (cs.reverse.dropWhile isPySpace).reverse

/-- Whether an input step declares itself an alternative:
`str(step_data.get("path_type", "main")).lower().strip() == "alternative"`
(the code tests `!= "alternative"` for main). -/
def declaredAlt (d : GenStepData) : Bool :=
  lowerStrip (d.path_type.getD "main") == "alternative"

/-- `prereq.replace("step_", "")`: remove every occurrence of `"step_"`,
scanning left to right. -/
def stripStepMarks : List Char → List Char
  | 's' :: 't' :: 'e' :: 'p' :: '_' :: rest => stripStepMarks rest
  | c :: rest => c :: stripStepMarks rest
  | [] => []

def digitsToNat : List Char → Option Nat
  | [] => none
  | cs =>
    if cs.all (fun c => c.isDigit) then
      some (cs.foldl (fun acc c => acc * 10 + (c.toNat - 48)) 0)
    else none

/-- Python `int(...)` on the stripped reference text: an optional sign
followed by digits.  (Python additionally tolerates surrounding whitespace
and digit-group underscores; none of the generator's `step_N` references use
those, so they are not modelled.) -/
def pyIntOfChars : List Char → Option Int
  | '-' :: rest => (digitsToNat rest).map (fun n => -(n : Int))
  | '+' :: rest => (digitsToNat rest).map (fun n => (n : Int))
  | cs => (digitsToNat cs).map (fun n => (n : Int))

/-- Resolve one symbolic `step_N` reference against the mint order: must start
with `step_`, the remainder must parse as an int, and the index must be in
range; anything else is silently dropped. -/
def parseStepRef (total : Nat) (r : String) : Option Nat :=
  match r.toList with
  | 's' :: 't' :: 'e' :: 'p' :: '_' :: _ =>
    match pyIntOfChars (stripStepMarks r.toList) with
    | some i => if 0 ≤ i ∧ i < (total : Int) then some i.toNat else none
    | none => none
  | _ => none

/-- Resolve a list of symbolic references to minted ids, dropping failures. -/
def resolveRefs (stepIds : Nat → String) (total : Nat) (refs : List String) : List String :=
  refs.filterMap (fun r => (parseStepRef total r).map stepIds)

/-- The body of `_parse_steps`' loop for input position `i`. -/
def parseOneStep (journey_id : String) (stepIds : Nat → String) (total : Nat) (now : Nat)
    (i : Nat) (d : GenStepData) : GoalStep :=
  let is_main := !(declaredAlt d)
  let y_pos : ℚ := ((i : ℚ) + 1) / ((total : ℚ) + 2)
  let x_pos : ℚ := if is_main then 1/2 else (if i % 2 = 0 then 3/10 else 7/10)
  let md0 : Option (List (String × MetaVal)) := d.metadata
  let md : Option (List (String × MetaVal)) :=
    match d.tips with
    | some tips => some (dictInsert (md0.getD []) "tips" (MetaVal.strList tips))
    | none => md0
  { id := stepIds i
    journey_id := journey_id
    title := d.title.getD ("Step " ++ toString (i + 1))
    custom_title := none
    description := d.description.getD ""
    order_index := (i : Int)
    status := if is_main then StepStatus.locked else StepStatus.alternative
    prerequisites := resolveRefs stepIds total d.prerequisites
    alternatives := resolveRefs stepIds total d.alternatives
    started_at := none
    completed_at := none
    notes := []
    metadata := md
    position := { x := x_pos, y := y_pos, layer := i }
    path_type := if is_main then PathType.main else PathType.alternative
    estimated_days := (match d.estimated_days with
                       | some dd => if dd = 0 then 14 else dd
                       | none => 14)
    actual_days_spent := none
    created_at := now }

/-- `_parse_steps`: mint all ids first (the `stepIds` supply), then build one
`GoalStep` per input entry with references resolved against the mint order. -/
def parse_steps (journey_id : String) (stepIds : Nat → String) (now : Nat)
    (steps_data : List GenStepData) : List GoalStep :=
  steps_data.enum.map (fun p => parseOneStep journey_id stepIds steps_data.length now p.1 p.2)

/-- The five hard-coded fallback steps (titles/descriptions abridged where the
source text contains apostrophes). -/
def fallbackStepsData : List (String × String × Int) :=
  [("Research and planning",
    "Research what is needed to achieve your goal and create a plan.", 7),
   ("Build foundational skills",
    "Develop the core skills and knowledge needed for this goal.", 21),
   ("Practice and apply",
    "Put your learning into practice with real applications.", 30),
   ("Refine and improve",
    "Refine your approach based on what you have learned.", 21),
   ("Final push",
    "Make the final effort to achieve your goal.", 14)]

/-- `_create_fallback_journey`: the fixed 5-step linear journey (all MAIN,
step 0 AVAILABLE, the rest LOCKED). -/
def create_fallback_journey (now : Nat) (journey_id : String) (stepIds : Nat → String)
    (user_id goal_content : String) (goal_reason goal_id : Option String) : GoalJourney :=
  let steps := fallbackStepsData.enum.map (fun p =>
    { id := stepIds p.1
      journey_id := journey_id
      title := p.2.1
      custom_title := none
      description := p.2.2.1
      order_index := (p.1 : Int)
      status := if p.1 = 0 then StepStatus.available else StepStatus.locked
      prerequisites := []
      alternatives := []
      started_at := none
      completed_at := none
      notes := []
      metadata := none
      position := { x := 1/2, y := ((p.1 : ℚ) + 1) / 6, layer := p.1 }
      path_type := PathType.main
      estimated_days := p.2.2.2
      actual_days_spent := none
      created_at := now : GoalStep })
  { id := journey_id
    user_id := user_id
    goal_id := goal_id
    goal_content := goal_content
    goal_reason := goal_reason
    steps := steps
    current_step_index := 0
    overall_progress := 0
    created_at := now
    updated_at := none
    journey_started_at := now
    is_ai_generated := true
    ai_notes := some "Lets take this step by step. Here is a general path to get you started!"
    map_width := 1000
    map_height := 2000 }

/-- Outcome of the external generator call as seen inside
`generate_journey`'s `try` block: either some exception was raised (API
failure, unparsable JSON, or a pydantic validation error while building the
steps), or a parsed JSON object with `ai_notes` and a `steps` array was
obtained. -/
inductive GenOutcome where
  | raises
  | returns (ai_notes : Option String) (steps_data : List GenStepData)
deriving DecidableEq, Repr

/-- Pydantic constraints of `GoalStepBase` that generator input can violate
(title `min_length=1`, `estimated_days ge=1`); a violation raises inside the
`try` block and so also lands in the fallback. -/
def pydanticStepOk (s : GoalStep) : Bool :=
  1 ≤ s.title.length && 1 ≤ s.estimated_days

/-- `generate_journey`: build a journey from the generator outcome; any raise
falls back to `_create_fallback_journey`.  A returned step list (even an
empty one) that validates is used as-is, with step 0 bumped to AVAILABLE when
present. -/
def generate_journey (now : Nat) (journey_id : String) (stepIds : Nat → String)
    (user_id goal_content : String) (goal_reason goal_id : Option String)
    (outcome : GenOutcome) : GoalJourney :=
  match outcome with
  | .raises =>
    create_fallback_journey now journey_id stepIds user_id goal_content goal_reason goal_id
  | .returns ai_notes steps_data =>
    let steps0 := parse_steps journey_id stepIds now steps_data
    if steps0.all pydanticStepOk then
      let steps :=
        match steps0 with
        | [] => []
        | s0 :: rest => { s0 with status := StepStatus.available } :: rest
      { id := journey_id
        user_id := user_id
        goal_id := goal_id
        goal_content := goal_content
        goal_reason := goal_reason
        steps := steps
        current_step_index := 0
        overall_progress := 0
        created_at := now
        updated_at := none
        journey_started_at := now
        is_ai_generated := true
        ai_notes := ai_notes
        map_width := 1000
        map_height := max 2000 ((steps.length : ℚ) * 300)
      }
    else
      create_fallback_journey now journey_id stepIds user_id goal_content goal_reason goal_id

/-! ### AI adjustments — `_apply_adjustments` / `adjust_journey` -/

/-- The `type` field of a generator-proposed change; `other` stands for any
string outside the four recognised types (the loop then does nothing). -/
inductive ChangeType where
  | update_title
  | complete_step
  | skip_step
  | update_status
  | other
deriving DecidableEq, Repr

/-- One entry of the proposed `changes` array.  `step_index : Option Int`
models a missing key as `none`; Python ints are unbounded and may be
negative. -/
structure AdjChange where
  type : ChangeType
  step_index : Option Int
  new_title : Option String
  new_status : Option String
deriving DecidableEq, Repr

/-- `StepStatus(value)`: look the string up in the enum; an unknown value
raises `ValueError`. -/
def statusFromString : String → Option StepStatus
  | "locked" => some .locked
  | "available" => some .available
  | "inprogress" => some .inProgress
  | "completed" => some .completed
  | "skipped" => some .skipped
  | "alternative" => some .alternative
  | _ => none

/-- Python list indexing `l[i]` resolved to a position: non-negative indices
as-is when in range, negative indices from the end; out of range raises
`IndexError` (`none`). -/
def pyIdx (len : Nat) (i : Int) : Option Nat :=
  if 0 ≤ i then (if i < (len : Int) then some i.toNat else none)
  else (if 0 ≤ (len : Int) + i then some ((len : Int) + i).toNat else none)

/-- The loop of `_apply_adjustments` over the change list.  A missing
`step_index` or one `>= len(updated_steps)` is skipped by the `continue`
guard; otherwise `updated_steps[step_index]` is read (raising `IndexError`,
i.e. `.error`, for a negative index below `-len`) and the change applied in
place.  `update_status` with an unrecognised status string raises
`ValueError`. -/
def applyChanges (now : Nat) : List GoalStep → List AdjChange → Except Unit (List GoalStep)
  | steps, [] => .ok steps
  | steps, c :: cs =>
    match c.step_index with
    | none => applyChanges now steps cs
    | some i =>
      if (steps.length : Int) ≤ i then applyChanges now steps cs
      else
        match pyIdx steps.length i with
        | none => .error ()
        | some k =>
          match steps.get? k with
          | none => .error ()
          | some step =>
            match c.type with
            | .update_title =>
              applyChanges now (steps.set k { step with custom_title := c.new_title }) cs
            | .complete_step =>
              applyChanges now
                (steps.set k { step with status := StepStatus.completed
                                         completed_at := some now }) cs
            | .skip_step =>
              applyChanges now (steps.set k { step with status := StepStatus.skipped }) cs
            | .update_status =>
              match statusFromString (c.new_status.getD "locked") with
              | some st => applyChanges now (steps.set k { step with status := st }) cs
              | none => .error ()
            | .other => applyChanges now steps cs

/-- `_apply_adjustments`: apply the proposed changes, then recompute progress
(counting COMPLETED among all steps over the main-path step count) and take
the proposed `new_current_step_index` if any. -/
def apply_adjustments (now : Nat) (j : GoalJourney) (changes : List AdjChange)
    (new_step_index : Option Int) : Except Unit GoalJourney :=
  match applyChanges now j.steps changes with
  | .error e => .error e
  | .ok updated_steps =>
    let completed := (updated_steps.filter (fun s => s.status == StepStatus.completed)).length
    let main_steps := (updated_steps.filter (fun s => s.is_on_main_path)).length
    let new_progress : ℚ := if 0 < main_steps then (completed : ℚ) / (main_steps : ℚ) else 0
    .ok { j with
          steps := updated_steps
          current_step_index := new_step_index.getD j.current_step_index
          overall_progress := new_progress
          updated_at := some now }

/-- `adjust_journey` around `_apply_adjustments`: the whole service call runs
in a `try` block, so a generator failure, or any exception while applying the
changes, returns the original journey untouched (second component: whether an
adjusted journey was produced). -/
def adjust_journey (now : Nat) (j : GoalJourney)
    (outcome : Except Unit (List AdjChange × Option Int)) : GoalJourney × Bool :=
  match outcome with
  | .error _ => (j, false)
  | .ok (changes, new_step_index) =>
    match apply_adjustments now j changes new_step_index with
    | .ok adjusted => (adjusted, true)
    | .error _ => (j, false)

/-! ### Spec-side derived notions and concrete example values -/

/-- The §3 invariant under scrutiny in C6: no ALTERNATIVE-typed step holds
status IN_PROGRESS or COMPLETED. -/
def altInvariant (j : GoalJourney) : Bool :=
  j.steps.all (fun s => !(s.path_type == PathType.alternative &&
    (s.status == StepStatus.inProgress || s.status == StepStatus.completed)))

/-- Index of the first step whose status is IN_PROGRESS or AVAILABLE. -/
def firstActiveIdx : List GoalStep → Option Nat
  | [] => none
  | s :: rest =>
    if s.status == StepStatus.inProgress || s.status == StepStatus.available then some 0
    else (firstActiveIdx rest).map (fun k => k + 1)

/-- Index of the last step whose status is COMPLETED. -/
def lastCompletedIdx : List GoalStep → Option Nat
  | [] => none
  | s :: rest =>
    match lastCompletedIdx rest with
    | some k => some (k + 1)
    | none => if s.status == StepStatus.completed then some 0 else none

/-- What `_update_journey_progress`'s index loop actually computes on the
ordered main-path list (established by `currentIndexLoop_eq_spec`): the index
of the first IN_PROGRESS-or-AVAILABLE step; else one past the index of the
last COMPLETED step; else 0. -/
def currentIndexSpec (l : List GoalStep) : Int :=
  match firstActiveIdx l with
  | some i => (i : Int)
  | none =>
    match lastCompletedIdx l with
    | some i => (i : Int) + 1
    | none => 0

/-- Unwrap a handler result, defaulting to a given journey (used only to name
concrete successful results in witness statements). -/
def okOr (j : GoalJourney) (e : Except JourneyError GoalJourney) : GoalJourney :=
  match e with
  | .ok x => x
  | .error _ => j

/-- Step builder for concrete test journeys (journey `"J"`, neutral layout
and text fields). -/
def mkStep (id : String) (order : Int) (st : StepStatus) (pt : PathType)
    (prereqs alts : List String) : GoalStep :=
  { id := id
    journey_id := "J"
    title := id
    custom_title := none
    description := ""
    order_index := order
    status := st
    prerequisites := prereqs
    alternatives := alts
    started_at := none
    completed_at := none
    notes := []
    metadata := none
    position := { x := 1/2, y := 1/2, layer := 0 }
    path_type := pt
    estimated_days := 14
    actual_days_spent := none
    created_at := 0 }

/-- Journey builder for concrete test journeys. -/
def mkJourney (steps : List GoalStep) : GoalJourney :=
  { id := "J"
    user_id := "U"
    goal_id := none
    goal_content := "goal"
    goal_reason := none
    steps := steps
    current_step_index := 0
    overall_progress := 0
    created_at := 0
    updated_at := none
    journey_started_at := 0
    is_ai_generated := true
    ai_notes := none
    map_width := 1000
    map_height := 2000 }

/-- A journey whose decision step has no alternatives and no children: zero
branch roots resolve (C1 witness input). -/
def exNoRoots : GoalJourney :=
  mkJourney [mkStep "D" 0 StepStatus.available PathType.main [] []]

/-- Diamond journey for C2: decision `D` is already COMPLETED with options
`B`, `C`; `X` is reachable from both branch roots. -/
def exDiamond : GoalJourney :=
  mkJourney
    [mkStep "D" 0 StepStatus.completed PathType.main [] ["B", "C"],
     mkStep "B" 1 StepStatus.alternative PathType.alternative ["D"] [],
     mkStep "C" 2 StepStatus.alternative PathType.alternative ["D"] [],
     mkStep "X" 3 StepStatus.alternative PathType.alternative ["B", "C"] []]

/-- Plain two-option journey on which `choose-path` succeeds with the
decision step not yet completed (C2 witness input). -/
def exTwoOptions : GoalJourney :=
  mkJourney
    [mkStep "D" 0 StepStatus.available PathType.main [] ["B", "C"],
     mkStep "B" 1 StepStatus.alternative PathType.alternative ["D"] [],
     mkStep "C" 2 StepStatus.alternative PathType.alternative ["D"] []]

/-- C10 counterexample input: the chosen root `B` itself is also reachable
from the other root `C` (edge `C → B` via `B`'s prerequisites), and the
decision step is already COMPLETED. -/
def exRootDiamond : GoalJourney :=
  mkJourney
    [mkStep "D" 0 StepStatus.completed PathType.main [] ["B", "C"],
     mkStep "B" 1 StepStatus.alternative PathType.alternative ["D", "C"] [],
     mkStep "C" 2 StepStatus.alternative PathType.alternative ["D"] []]

/-- Two main-path steps, the first AVAILABLE, the second LOCKED (C3 witness
input). -/
def exTwoMain : GoalJourney :=
  mkJourney
    [mkStep "A" 0 StepStatus.available PathType.main [] [],
     mkStep "B" 1 StepStatus.locked PathType.main ["A"] []]

/-- A single ALTERNATIVE-typed, ALTERNATIVE-status step (C6 counterexample
input). -/
def exAltOnly : GoalJourney :=
  mkJourney [mkStep "A" 0 StepStatus.alternative PathType.alternative [] []]

/-- A journey with no main-path step but a non-zero stored progress (C7
counterexample input; `overall_progress = 1/2` is a legal pydantic value). -/
def exAltHalf : GoalJourney :=
  { mkJourney [mkStep "A" 0 StepStatus.alternative PathType.alternative [] []] with
    overall_progress := 1/2 }

/-- Main path [AVAILABLE, IN_PROGRESS] (C8 counterexample input). -/
def exAvailThenInProgress : GoalJourney :=
  mkJourney
    [mkStep "A" 0 StepStatus.available PathType.main [] [],
     mkStep "B" 1 StepStatus.inProgress PathType.main [] []]

/-- Main path [SKIPPED, COMPLETED, LOCKED] (C8 witness input: no active step,
last completed at index 1). -/
def exSkipCompLock : GoalJourney :=
  mkJourney
    [mkStep "A" 0 StepStatus.skipped PathType.main [] [],
     mkStep "B" 1 StepStatus.completed PathType.main [] [],
     mkStep "C" 2 StepStatus.locked PathType.main [] []]

/-- Two steps for the C9 counterexample: a negative `step_index` of -1. -/
def exPairSteps : List GoalStep :=
  [mkStep "s0" 0 StepStatus.available PathType.main [] [],
   mkStep "s1" 1 StepStatus.locked PathType.main [] []]

/-- Example step-id supply for generator-adapter computations. -/
def exIds (n : Nat) : String := "id" ++ toString n

/-- Generator input for the C5 counterexample: step 0 is a main decision step
listing steps 1 and 2 as alternatives, but step 1 declares itself `main` with
no prerequisites. -/
def exGenData : List GenStepData :=
  [{ title := some "Decide", description := some "", estimated_days := some 2,
     path_type := some "main", prerequisites := [], alternatives := ["step_1", "step_2"],
     metadata := none, tips := some [] },
   { title := some "Option A", description := some "", estimated_days := some 14,
     path_type := some "main", prerequisites := [], alternatives := [],
     metadata := none, tips := some [] },
   { title := some "Option B", description := some "", estimated_days := some 14,
     path_type := some "alternative", prerequisites := ["step_0"], alternatives := [],
     metadata := none, tips := some [] }]

/-! ## Theorems -/

/-! ### C4 — generation fallback -/

/-- C4 counterexample: when the generator call succeeds but returns an empty
`steps` array, `generate_journey` does NOT substitute the 5-step fallback —
it builds a journey with zero steps (the fallback, for comparison, has 5). -/
theorem C4_counterexample :
    (generate_journey 0 "J" exIds "u" "goal" none none (GenOutcome.returns none [])).steps.length = 0
    ∧ (create_fallback_journey 0 "J" exIds "u" "goal" none none).steps.length = 5 :=
  ⟨rfl, rfl⟩

/-- C4 (amended): if the generator call raises, the result is exactly the
fixed 5-step fallback journey (all steps MAIN, step 0 AVAILABLE, steps 1-4
LOCKED); if the call succeeds with an empty step list, a journey is still
produced — never an absent result — but with an empty step list rather than
the fallback. -/
theorem C4_generate_fallback (now : Nat) (jid : String) (ids : Nat → String)
    (uid gc : String) (gr gi : Option String) (an : Option String) :
    generate_journey now jid ids uid gc gr gi GenOutcome.raises =
      create_fallback_journey now jid ids uid gc gr gi
    ∧ ((create_fallback_journey now jid ids uid gc gr gi).steps.map
        (fun s => (s.path_type, s.status)) =
       [(PathType.main, StepStatus.available), (PathType.main, StepStatus.locked),
        (PathType.main, StepStatus.locked), (PathType.main, StepStatus.locked),
        (PathType.main, StepStatus.locked)])
    ∧ (generate_journey now jid ids uid gc gr gi (GenOutcome.returns an [])).steps = [] :=
  ⟨rfl, rfl, rfl⟩

/-! ### C7 — overall progress -/

/-- C7 counterexample: a journey whose main path is empty keeps its stored
`overall_progress` (here 1/2) through a recomputation; the claim demands 0
when the denominator is 0. -/
theorem C7_counterexample :
    (update_journey_progress 1 exAltHalf).overall_progress = 1/2
    ∧ (exAltHalf.steps.filter (fun s => s.is_on_main_path)).length = 0
    ∧ ((1 : ℚ)/2 ≠ 0) := by
  refine ⟨rfl, rfl, by norm_num⟩

/-- C7 (amended): after a progress recomputation on a journey whose stored
progress is a legal pydantic value (in [0,1]), the new progress is in [0,1]
and equals COMPLETED-count / main-count over the MAIN-or-COMPLETED steps when
at least one such step exists; when none exists the recomputation returns the
journey unchanged, keeping the stored progress instead of setting 0. -/
theorem C7_progress_spec (now : Nat) (j : GoalJourney)
    (hb : 0 ≤ j.overall_progress ∧ j.overall_progress ≤ 1) :
    (update_journey_progress now j).overall_progress =
      (if (j.steps.filter (fun s => s.is_on_main_path)).isEmpty then j.overall_progress
       else (((j.steps.filter (fun s => s.is_on_main_path)).filter
                (fun s => s.status == StepStatus.completed)).length : ℚ) /
            ((j.steps.filter (fun s => s.is_on_main_path)).length : ℚ))
    ∧ 0 ≤ (update_journey_progress now j).overall_progress
    ∧ (update_journey_progress now j).overall_progress ≤ 1 := by
  cases hE : (j.steps.filter (fun s => s.is_on_main_path)).isEmpty with
  | true =>
    have h1 : update_journey_progress now j = j := by
      unfold update_journey_progress
      simp [hE]
    rw [h1]
    simp only [hE, if_true]
    exact ⟨trivial, hb.1, hb.2⟩
  | false =>
    have h1 : (update_journey_progress now j).overall_progress =
        (((j.steps.filter (fun s => s.is_on_main_path)).filter
            (fun s => s.status == StepStatus.completed)).length : ℚ) /
          ((j.steps.filter (fun s => s.is_on_main_path)).length : ℚ) := by
      unfold update_journey_progress
      simp [hE]
    have hne : j.steps.filter (fun s => s.is_on_main_path) ≠ [] := by
      intro hnil
      rw [hnil] at hE
      simp at hE
    have hlen : 0 < (j.steps.filter (fun s => s.is_on_main_path)).length :=
      List.length_pos.mpr hne
    have hle : ((j.steps.filter (fun s => s.is_on_main_path)).filter
        (fun s => s.status == StepStatus.completed)).length ≤
        (j.steps.filter (fun s => s.is_on_main_path)).length :=
      List.length_filter_le _ _
    rw [h1]
    simp only [hE, Bool.false_eq_true, if_false]
    refine ⟨trivial, by positivity, ?_⟩
    rw [div_le_one (by exact_mod_cast hlen)]
    exact_mod_cast hle

/-! ### C8 — current step index -/

/-- C8 counterexample: with main-path statuses [AVAILABLE, IN_PROGRESS] the
recomputation yields `current_step_index = 0` (the first AVAILABLE-or-
IN_PROGRESS step), while the claim demands the index of the first IN_PROGRESS
step, i.e. 1. -/
theorem C8_counterexample :
    (update_journey_progress 1 exAvailThenInProgress).current_step_index = 0
    ∧ (sortSteps (exAvailThenInProgress.steps.filter (fun s => s.is_on_main_path))).map
        (fun s => s.status) = [StepStatus.available, StepStatus.inProgress] :=
  ⟨rfl, rfl⟩

/-- The enumerate loop of `_update_journey_progress`, fully characterised:
starting at position `i` with accumulator `acc`, it returns the absolute
position of the first IN_PROGRESS-or-AVAILABLE step, else one past the
absolute position of the last COMPLETED step, else `acc`. -/
theorem currentIndexLoop_eq_spec (l : List GoalStep) (i acc : Int) :
    currentIndexLoop l i acc =
      (match firstActiveIdx l with
       | some k => i + (k : Int)
       | none =>
         match lastCompletedIdx l with
         | some k => i + (k : Int) + 1
         | none => acc) := by
  induction l generalizing i acc with
  | nil => rfl
  | cons s rest ih =>
    by_cases hip : s.status = StepStatus.inProgress
    · simp [currentIndexLoop, firstActiveIdx, hip]
    · by_cases hav : s.status = StepStatus.available
      · simp [currentIndexLoop, firstActiveIdx, hip, hav]
      · by_cases hco : s.status = StepStatus.completed
        · have h1 : currentIndexLoop (s :: rest) i acc = currentIndexLoop rest (i + 1) (i + 1) := by
            simp [currentIndexLoop, hip, hav, hco]
          have h2 : firstActiveIdx (s :: rest) = (firstActiveIdx rest).map (fun k => k + 1) := by
            simp [firstActiveIdx, hip, hav]
          rw [h1, ih, h2]
          cases hfa : firstActiveIdx rest with
          | some k => simp [hfa]; ring
          | none =>
            have h3 : lastCompletedIdx (s :: rest) =
                (match lastCompletedIdx rest with
                 | some k => some (k + 1)
                 | none => some 0) := by
              simp [lastCompletedIdx, hco]
            rw [h3]
            cases hlc : lastCompletedIdx rest with
            | some k => simp [hfa, hlc]; ring
            | none => simp [hfa, hlc]
        · have h1 : currentIndexLoop (s :: rest) i acc = currentIndexLoop rest (i + 1) acc := by
            simp [currentIndexLoop, hip, hav, hco]
          have h2 : firstActiveIdx (s :: rest) = (firstActiveIdx rest).map (fun k => k + 1) := by
            simp [firstActiveIdx, hip, hav]
          have h3 : lastCompletedIdx (s :: rest) =
              (match lastCompletedIdx rest with
               | some k => some (k + 1)
               | none => none) := by
            simp [lastCompletedIdx, hco]
          rw [h1, ih, h2, h3]
          cases hfa : firstActiveIdx rest with
          | some k => simp [hfa]; ring
          | none =>
            cases hlc : lastCompletedIdx rest with
            | some k => simp [hfa, hlc]; ring
            | none => simp [hfa, hlc]

/-- C8 (amended): for a journey with a non-empty main path, the recomputed
`current_step_index` is the index, in the ordered main-path sequence, of the
first step whose status is IN_PROGRESS or AVAILABLE (whichever kind occurs
first); if there is none, one more than the index of the last COMPLETED step
(0 when there is no COMPLETED step either); clamped from above to the last
valid index. -/
theorem C8_current_index_spec (now : Nat) (j : GoalJourney)
    (hne : (j.steps.filter (fun s => s.is_on_main_path)).isEmpty = false) :
    (update_journey_progress now j).current_step_index =
      min (currentIndexSpec (sortSteps (j.steps.filter (fun s => s.is_on_main_path))))
        (((j.steps.filter (fun s => s.is_on_main_path)).length : Int) - 1) := by
  have h1 : (update_journey_progress now j).current_step_index =
      min (currentIndexLoop (sortSteps (j.steps.filter (fun s => s.is_on_main_path))) 0 0)
        (((j.steps.filter (fun s => s.is_on_main_path)).length : Int) - 1) := by
    unfold update_journey_progress
    simp [hne]
  rw [h1, currentIndexLoop_eq_spec]
  unfold currentIndexSpec
  cases hfa : firstActiveIdx (sortSteps (j.steps.filter (fun s => s.is_on_main_path))) with
  | some k => simp
  | none =>
    cases hlc : lastCompletedIdx (sortSteps (j.steps.filter (fun s => s.is_on_main_path))) with
    | none => simp
    | some k => simp

/-! ### C9 — adjustment index handling -/

/-- C9 counterexample: a change with the invalid `step_index = -1` is not
ignored — Python indexing applies it to the last step (here completing
`s1`) — and `step_index = -3` on a 2-step journey raises, failing the whole
adjustment. -/
theorem C9_counterexample :
    applyChanges 4 exPairSteps
      [{ type := ChangeType.complete_step, step_index := some (-1),
         new_title := none, new_status := none }] =
      Except.ok
        [mkStep "s0" 0 StepStatus.available PathType.main [] [],
         { mkStep "s1" 1 StepStatus.locked PathType.main [] [] with
           status := StepStatus.completed, completed_at := some 4 }]
    ∧ applyChanges 4 exPairSteps
        [{ type := ChangeType.complete_step, step_index := some (-3),
           new_title := none, new_status := none }] = Except.error () :=
  ⟨rfl, rfl⟩

/-- C9 (amended): a change whose `step_index` is missing or `≥` the number of
steps is skipped while the remaining changes still apply; a negative
`step_index` is NOT ignored: when `-len ≤ i < 0` it is treated Python-style
as addressing position `len + i` and applied, and when `i < -len` the lookup
raises, failing the whole adjustment. -/
theorem C9_adjustment_index_spec (now : Nat) (steps : List GoalStep) (c : AdjChange)
    (cs : List AdjChange) :
    ((c.step_index = none ∨ (∃ i : Int, c.step_index = some i ∧ (steps.length : Int) ≤ i)) →
      applyChanges now steps (c :: cs) = applyChanges now steps cs)
    ∧ (∀ i : Int, c.step_index = some i → i < 0 → (steps.length : Int) + i < 0 →
        applyChanges now steps (c :: cs) = Except.error ())
    ∧ (∀ i : Int, c.step_index = some i → i < 0 → 0 ≤ (steps.length : Int) + i →
        applyChanges now steps (c :: cs) =
          applyChanges now steps
            ({ c with step_index := some ((steps.length : Int) + i) } :: cs)) := by
  refine ⟨?_, ?_, ?_⟩
  · rintro (hnone | ⟨i, hsome, hge⟩)
    · simp [applyChanges, hnone]
    · simp only [applyChanges, hsome]
      rw [if_pos hge]
  · intro i hsome hneg hoob
    simp only [applyChanges, hsome]
    rw [if_neg (by omega)]
    unfold pyIdx
    rw [if_neg (by omega), if_neg (by omega)]
  · intro i hsome hneg hin
    simp only [applyChanges, hsome]
    rw [if_neg (by omega), if_neg (by omega)]
    unfold pyIdx
    rw [if_neg (by omega), if_pos hin, if_pos (by omega), if_pos (by omega)]

/-- C7 witness: `C7_progress_spec` applied to the two-step main-path journey
`exTwoMain` (stored progress 0, a legal value). -/
theorem C7_witness :
    (update_journey_progress 1 exTwoMain).overall_progress =
      (if (exTwoMain.steps.filter (fun s => s.is_on_main_path)).isEmpty then
        exTwoMain.overall_progress
       else (((exTwoMain.steps.filter (fun s => s.is_on_main_path)).filter
                (fun s => s.status == StepStatus.completed)).length : ℚ) /
            ((exTwoMain.steps.filter (fun s => s.is_on_main_path)).length : ℚ))
    ∧ 0 ≤ (update_journey_progress 1 exTwoMain).overall_progress
    ∧ (update_journey_progress 1 exTwoMain).overall_progress ≤ 1 :=
  C7_progress_spec 1 exTwoMain ⟨by norm_num [exTwoMain, mkJourney], by norm_num [exTwoMain, mkJourney]⟩

/-- C8 witness: `C8_current_index_spec` applied to the main path
[SKIPPED, COMPLETED, LOCKED] (no active step, last COMPLETED at index 1, so
the index is 2). -/
theorem C8_witness :
    (update_journey_progress 1 exSkipCompLock).current_step_index =
      min (currentIndexSpec (sortSteps (exSkipCompLock.steps.filter (fun s => s.is_on_main_path))))
        (((exSkipCompLock.steps.filter (fun s => s.is_on_main_path)).length : Int) - 1) :=
  C8_current_index_spec 1 exSkipCompLock rfl

/-- C9 witness: `C9_adjustment_index_spec` applied to a 2-step list with the
indices 5 (skipped), -9 (IndexError) and -1 (applied at position 2 + (-1)). -/
theorem C9_witness :
    (applyChanges 0 exPairSteps
        ({ type := ChangeType.skip_step, step_index := some 5,
           new_title := none, new_status := none } :: []) =
      applyChanges 0 exPairSteps [])
    ∧ applyChanges 0 exPairSteps
        ({ type := ChangeType.skip_step, step_index := some (-9),
           new_title := none, new_status := none } :: []) = Except.error ()
    ∧ applyChanges 0 exPairSteps
        ({ type := ChangeType.skip_step, step_index := some (-1),
           new_title := none, new_status := none } :: []) =
      applyChanges 0 exPairSteps
        ({ type := ChangeType.skip_step, step_index := some ((exPairSteps.length : Int) + (-1)),
           new_title := none, new_status := none } :: []) := by
  refine ⟨?_, ?_, ?_⟩
  · exact (C9_adjustment_index_spec 0 exPairSteps _ []).1 (Or.inr ⟨5, rfl, by decide⟩)
  · exact (C9_adjustment_index_spec 0 exPairSteps _ []).2.1 (-9) rfl (by decide) (by decide)
  · exact (C9_adjustment_index_spec 0 exPairSteps _ []).2.2 (-1) rfl (by decide) (by decide)

/-! ### C5 — no forcing of branch-option steps in `_parse_steps` -/

/-- C5 counterexample: in `exGenData` step 0 is a main decision step with the
two valid alternatives `id1`, `id2`, yet step 1 — listed as an option —
comes out `MAIN`/`LOCKED` with empty prerequisites, exactly as it declared
itself: `_parse_steps` never forces `ALTERNATIVE`/`ALTERNATIVE` nor adds the
decision step to the option's prerequisites. -/
theorem C5_counterexample :
    ((parse_steps "J" exIds 0 exGenData).map (fun s => (s.path_type, s.status, s.prerequisites)) =
      [(PathType.main, StepStatus.locked, ([] : List String)),
       (PathType.main, StepStatus.locked, ([] : List String)),
       (PathType.alternative, StepStatus.alternative, ["id0"])])
    ∧ ((parse_steps "J" exIds 0 exGenData).map (fun s => s.alternatives) =
        [["id1", "id2"], [], []]) :=
  ⟨rfl, rfl⟩

/-- Positional characterisation of `_parse_steps`. -/
theorem parse_steps_get (jid : String) (ids : Nat → String) (now : Nat)
    (data : List GenStepData) (i : Nat) (hi : i < data.length)
    (ho : i < (parse_steps jid ids now data).length) :
    (parse_steps jid ids now data).get ⟨i, ho⟩ =
      parseOneStep jid ids data.length now i (data.get ⟨i, hi⟩) := by
  simp [parse_steps, List.get_eq_getElem, List.getElem_map, List.getElem_enum]

/-- C5 (amended): for every generator input list, each output step's
`path_type` and `status` are decided solely by that step's own declared
`path_type` flag (`alternative` gives ALTERNATIVE/ALTERNATIVE, anything else
MAIN/LOCKED), and its prerequisites are exactly its own declared references
that resolve; being listed in a decision step's `alternatives` forces
nothing. -/
theorem C5_parse_no_forcing (jid : String) (ids : Nat → String) (now : Nat)
    (data : List GenStepData) (i : Nat) (hi : i < data.length) :
    ∃ ho : i < (parse_steps jid ids now data).length,
      ((parse_steps jid ids now data).get ⟨i, ho⟩).path_type =
          (if declaredAlt (data.get ⟨i, hi⟩) then PathType.alternative else PathType.main)
      ∧ ((parse_steps jid ids now data).get ⟨i, ho⟩).status =
          (if declaredAlt (data.get ⟨i, hi⟩) then StepStatus.alternative else StepStatus.locked)
      ∧ ((parse_steps jid ids now data).get ⟨i, ho⟩).prerequisites =
          resolveRefs ids data.length ((data.get ⟨i, hi⟩).prerequisites) := by
  have hlen : (parse_steps jid ids now data).length = data.length := by
    simp [parse_steps]
  refine ⟨by rw [hlen]; exact hi, ?_⟩
  rw [parse_steps_get jid ids now data i hi]
  cases h : declaredAlt (data.get ⟨i, hi⟩) with
  | true =>
    rw [List.get_eq_getElem] at h
    simp [parseOneStep, h]
  | false =>
    rw [List.get_eq_getElem] at h
    simp [parseOneStep, h]

/-- C5 witness: `C5_parse_no_forcing` at `exGenData`, position 1 (the option
step that declared itself main). -/
theorem C5_witness :
    ∃ ho : 1 < (parse_steps "J" exIds 0 exGenData).length,
      ((parse_steps "J" exIds 0 exGenData).get ⟨1, ho⟩).path_type =
          (if declaredAlt (exGenData.get ⟨1, by decide⟩) then PathType.alternative else PathType.main)
      ∧ ((parse_steps "J" exIds 0 exGenData).get ⟨1, ho⟩).status =
          (if declaredAlt (exGenData.get ⟨1, by decide⟩) then StepStatus.alternative
           else StepStatus.locked)
      ∧ ((parse_steps "J" exIds 0 exGenData).get ⟨1, ho⟩).prerequisites =
          resolveRefs exIds exGenData.length ((exGenData.get ⟨1, by decide⟩).prerequisites) :=
  C5_parse_no_forcing "J" exIds 0 exGenData 1 (by decide)

/-! ### Plumbing lemmas for `choose_path` -/

theorem update_journey_progress_steps (now : Nat) (j : GoalJourney) :
    (update_journey_progress now j).steps = j.steps := by
  unfold update_journey_progress
  by_cases h : (j.steps.filter (fun s => s.is_on_main_path)).isEmpty = true <;> simp [h]

theorem stampMeta_id (c : String) (s : GoalStep) : (stampMeta c s).id = s.id := rfl

theorem stampMeta_status (c : String) (s : GoalStep) : (stampMeta c s).status = s.status := rfl

theorem stampMeta_path (c : String) (s : GoalStep) :
    (stampMeta c s).path_type = s.path_type := rfl

theorem stepById_some {steps : List GoalStep} {sid : String} {d : GoalStep}
    (h : stepById steps sid = some d) : d ∈ steps ∧ d.id = sid := by
  unfold stepById at h
  refine ⟨by simpa using List.mem_of_find?_eq_some h, by simpa using List.find?_some h⟩

theorem stepById_mem_nodup {steps : List GoalStep} {s : GoalStep}
    (hnd : (steps.map (fun t => t.id)).Nodup) (hs : s ∈ steps) :
    stepById steps s.id = some s := by
  unfold stepById
  have hsome : (steps.reverse.find? (fun t => t.id == s.id)).isSome := by
    rw [List.find?_isSome]
    exact ⟨s, by simpa using hs, by simp⟩
  obtain ⟨t, ht⟩ := Option.isSome_iff_exists.mp hsome
  have htmem : t ∈ steps := by
    have := List.mem_of_find?_eq_some ht
    simpa using this
  have htid : t.id = s.id := by simpa using List.find?_some ht
  have hts : t = s := List.inj_on_of_nodup_map hnd htmem hs htid
  rw [ht, hts]

theorem reachAux_visited_subset (steps : List GoalStep) :
    ∀ (fuel : Nat) (stack visited : List String), visited ⊆ reachAux steps fuel stack visited := by
  intro fuel
  induction fuel with
  | zero => intro stack visited; unfold reachAux; exact fun x hx => hx
  | succ k ih =>
    intro stack visited
    cases stack with
    | nil => unfold reachAux; exact fun x hx => hx
    | cons c rest =>
      unfold reachAux
      by_cases hc : visited.contains c = true
      · rw [if_pos hc]
        exact ih rest visited
      · rw [if_neg hc]
        exact fun x hx =>
          ih (childrenMap steps c ++ rest) (visited ++ [c]) (List.mem_append.mpr (Or.inl hx))

theorem mem_reachSet_self (steps : List GoalStep) (x : String) : x ∈ reachSet steps x := by
  unfold reachSet
  have hpos : (steps.length + 1) * (steps.length + 1) =
      ((steps.length + 1) * (steps.length + 1) - 1) + 1 := by
    have : 1 ≤ (steps.length + 1) * (steps.length + 1) := Nat.one_le_iff_ne_zero.mpr (by positivity)
    omega
  rw [hpos]
  unfold reachAux
  simp only [List.contains, List.elem_nil, Bool.false_eq_true, if_false]
  exact reachAux_visited_subset steps _ _ ([] ++ [x]) (by simp)

theorem mem_affected_of_mem_reach {steps : List GoalStep} {roots : List String} {cid : String}
    (hcid : cid ∈ roots) {x : String} (hx : x ∈ reachSet steps cid) :
    x ∈ affectedIds steps roots := by
  unfold affectedIds
  exact List.mem_flatMap.mpr ⟨cid, hcid, hx⟩

/-- Success inversion for `choose_path`: on `.ok`, at least two roots
resolved, the chosen id was among them, and the resulting step list is the
input list transformed elementwise by the three passes (reclassification,
metadata stamp, chosen-root promotion) fused into one function. -/
theorem choose_path_ok_inv (now : Nat) (j : GoalJourney) (sid cid : String)
    (j2 : GoalJourney) (decision : GoalStep)
    (hdec : stepById j.steps sid = some decision)
    (h : choose_path now j sid cid = Except.ok j2) :
    2 ≤ (chooseRoots j.steps decision).length
    ∧ cid ∈ chooseRoots j.steps decision
    ∧ j2.steps = j.steps.map (fun s =>
        let s1 := if s.id ∈ affectedIds j.steps (chooseRoots j.steps decision) then
            (if s.id ∈ reachSet j.steps cid then
              { s with path_type := PathType.main
                       status := if s.status == StepStatus.alternative then StepStatus.locked
                                 else s.status }
            else { s with path_type := PathType.alternative, status := StepStatus.alternative })
          else s
        let s2 := if s1.id == decision.id then stampMeta cid s1 else s1
        if decision.status == StepStatus.completed &&
           (s2.id == cid && (s2.status == StepStatus.locked || s2.status == StepStatus.alternative))
        then { s2 with status := StepStatus.available }
        else s2) := by
  simp only [choose_path, hdec] at h
  cases hch : stepById j.steps cid with
  | none =>
    simp only [hch] at h
    exact (Except.noConfusion h)
  | some chosen =>
    simp only [hch] at h
    by_cases hjid : chosen.journey_id ≠ j.id
    · rw [if_pos hjid] at h; simp at h
    · rw [if_neg hjid] at h
      by_cases h2 : (chooseRoots j.steps decision).length < 2
      · rw [if_pos h2] at h; simp at h
      · rw [if_neg h2] at h
        by_cases h3 : ¬ (cid ∈ chooseRoots j.steps decision)
        · rw [if_pos h3] at h; simp at h
        · rw [if_neg h3] at h
          by_cases h4 : (affectedIds j.steps (chooseRoots j.steps decision)).any (fun sid2 =>
              match stepById j.steps sid2 with
              | some st => st.status == StepStatus.inProgress || st.status == StepStatus.completed
              | none => false) = true
          · rw [if_pos h4] at h; simp at h
          · rw [if_neg h4] at h
            refine ⟨by omega, by simpa using h3, ?_⟩
            injection h with h5
            rw [← h5, update_journey_progress_steps]
            by_cases hcs : (decision.status == StepStatus.completed) = true
            · rw [if_pos hcs, List.map_map, List.map_map]
              refine List.map_congr_left (fun s hs => ?_)
              simp only [Function.comp, hcs, Bool.true_and]
            · have hcs2 : (decision.status == StepStatus.completed) = false :=
                Bool.eq_false_iff.mpr hcs
              rw [if_neg hcs, List.map_map]
              refine List.map_congr_left (fun s hs => ?_)
              simp only [Function.comp, hcs2, Bool.false_and, Bool.false_eq_true, if_false]


theorem stampMeta_metadata (c : String) (s : GoalStep) :
    (stampMeta c s).metadata =
      some (dictInsert (s.metadata.getD []) "selected_path_step_id" (MetaVal.str c)) := rfl

theorem promote_path (b : Bool) (cid : String) (t : GoalStep) :
    (if (b && (t.id == cid && (t.status == StepStatus.locked || t.status == StepStatus.alternative))) = true
     then { t with status := StepStatus.available } else t).path_type = t.path_type := by
  by_cases h : (b && (t.id == cid &&
      (t.status == StepStatus.locked || t.status == StepStatus.alternative))) = true <;> simp [h]

theorem promote_metadata (b : Bool) (cid : String) (t : GoalStep) :
    (if (b && (t.id == cid && (t.status == StepStatus.locked || t.status == StepStatus.alternative))) = true
     then { t with status := StepStatus.available } else t).metadata = t.metadata := by
  by_cases h : (b && (t.id == cid &&
      (t.status == StepStatus.locked || t.status == StepStatus.alternative))) = true <;> simp [h]

theorem promote_status (b : Bool) (cid : String) (t : GoalStep) :
    (if (b && (t.id == cid && (t.status == StepStatus.locked || t.status == StepStatus.alternative))) = true
     then { t with status := StepStatus.available } else t).status =
      (if (b && (t.id == cid && (t.status == StepStatus.locked || t.status == StepStatus.alternative))) = true
       then StepStatus.available else t.status) := by
  by_cases h : (b && (t.id == cid &&
      (t.status == StepStatus.locked || t.status == StepStatus.alternative))) = true <;> simp [h]

theorem stampIf_id (did cid : String) (t : GoalStep) :
    (if (t.id == did) = true then stampMeta cid t else t).id = t.id := by
  by_cases h : (t.id == did) = true <;> simp [h, stampMeta_id]

theorem stampIf_status (did cid : String) (t : GoalStep) :
    (if (t.id == did) = true then stampMeta cid t else t).status = t.status := by
  by_cases h : (t.id == did) = true <;> simp [h, stampMeta_status]

theorem stampIf_path (did cid : String) (t : GoalStep) :
    (if (t.id == did) = true then stampMeta cid t else t).path_type = t.path_type := by
  by_cases h : (t.id == did) = true <;> simp [h, stampMeta_path]

/-- Per-index characterisation of a successful `choose_path`, shared by the
claims about its effect: (A) a step whose id is reachable from the chosen
root ends MAIN with status ALTERNATIVE→LOCKED / otherwise preserved — except
that the chosen root itself is promoted to AVAILABLE when the decision step
was already COMPLETED and the root was LOCKED or ALTERNATIVE; (B) an affected
step not reachable from the chosen root ends ALTERNATIVE/ALTERNATIVE; (C) an
unaffected step keeps status and path type, and is fully unchanged unless it
is the decision step; (D) the decision step records `selected_path_step_id`
in its metadata. -/
theorem choose_path_core (now : Nat) (j : GoalJourney) (sid cid : String)
    (j2 : GoalJourney) (decision : GoalStep)
    (hdec : stepById j.steps sid = some decision)
    (h : choose_path now j sid cid = Except.ok j2) :
    j2.steps.length = j.steps.length
    ∧ ∀ (i : Nat) (s s2 : GoalStep), j.steps.get? i = some s → j2.steps.get? i = some s2 →
      (s.id ∈ reachSet j.steps cid →
        s2.path_type = PathType.main
        ∧ s2.status =
            (if decision.status = StepStatus.completed ∧ s.id = cid
                ∧ (s.status = StepStatus.locked ∨ s.status = StepStatus.alternative)
             then StepStatus.available
             else if s.status = StepStatus.alternative then StepStatus.locked else s.status))
      ∧ (s.id ∉ reachSet j.steps cid →
          s.id ∈ affectedIds j.steps (chooseRoots j.steps decision) →
          s2.path_type = PathType.alternative ∧ s2.status = StepStatus.alternative)
      ∧ (s.id ∉ affectedIds j.steps (chooseRoots j.steps decision) →
          s2.status = s.status ∧ s2.path_type = s.path_type ∧ (s.id ≠ sid → s2 = s))
      ∧ (s.id = sid →
          s2.metadata = some (dictInsert (s.metadata.getD [])
            "selected_path_step_id" (MetaVal.str cid))) := by
  obtain ⟨hr2, hcroots, hsteps⟩ := choose_path_ok_inv now j sid cid j2 decision hdec h
  have hdid : decision.id = sid := (stepById_some hdec).2
  have hcidreach : cid ∈ reachSet j.steps cid := mem_reachSet_self _ _
  have hcidaff : cid ∈ affectedIds j.steps (chooseRoots j.steps decision) :=
    mem_affected_of_mem_reach hcroots hcidreach
  constructor
  · rw [hsteps, List.length_map]
  intro i s s2 hs hs2
  rw [hsteps, List.get?_map, hs, Option.map_some'] at hs2
  injection hs2 with hs2
  subst hs2
  simp only []
  set t1 : GoalStep := (if s.id ∈ affectedIds j.steps (chooseRoots j.steps decision) then
      (if s.id ∈ reachSet j.steps cid then
        { s with path_type := PathType.main
                 status := if s.status == StepStatus.alternative then StepStatus.locked
                           else s.status }
      else { s with path_type := PathType.alternative, status := StepStatus.alternative })
    else s) with ht1
  refine ⟨?_, ?_, ?_, ?_⟩
  · -- (A) steps reachable from the chosen root
    intro hin
    have hinaff : s.id ∈ affectedIds j.steps (chooseRoots j.steps decision) :=
      mem_affected_of_mem_reach hcroots hin
    have hid1 : t1.id = s.id := by rw [ht1, if_pos hinaff, if_pos hin]
    have hst1 : t1.status =
        (if s.status = StepStatus.alternative then StepStatus.locked else s.status) := by
      rw [ht1, if_pos hinaff, if_pos hin]
      by_cases hsa : s.status = StepStatus.alternative <;> simp [hsa]
    refine ⟨?_, ?_⟩
    · rw [promote_path, stampIf_path, ht1, if_pos hinaff, if_pos hin]
    · rw [promote_status, stampIf_status, stampIf_id, hid1, hst1]
      have hiff : ((decision.status == StepStatus.completed) &&
          ((s.id == cid) &&
           ((if s.status = StepStatus.alternative then StepStatus.locked else s.status) ==
              StepStatus.locked ||
            (if s.status = StepStatus.alternative then StepStatus.locked else s.status) ==
              StepStatus.alternative))) = true
          ↔ (decision.status = StepStatus.completed ∧ s.id = cid
             ∧ (s.status = StepStatus.locked ∨ s.status = StepStatus.alternative)) := by
        by_cases hsa : s.status = StepStatus.alternative
        · simp [hsa]
        · simp [hsa]
      by_cases hcond : decision.status = StepStatus.completed ∧ s.id = cid
          ∧ (s.status = StepStatus.locked ∨ s.status = StepStatus.alternative)
      · rw [if_pos hcond, if_pos (hiff.mpr hcond)]
      · rw [if_neg hcond, if_neg (fun hb => hcond (hiff.mp hb))]
  · -- (B) affected steps outside the chosen branch
    intro hnin hinaff
    have hsne : s.id ≠ cid := fun he => hnin (he ▸ hcidreach)
    have hid1 : t1.id = s.id := by rw [ht1, if_pos hinaff, if_neg hnin]
    have hst1 : t1.status = StepStatus.alternative := by rw [ht1, if_pos hinaff, if_neg hnin]
    refine ⟨?_, ?_⟩
    · rw [promote_path, stampIf_path, ht1, if_pos hinaff, if_neg hnin]
    · rw [promote_status, stampIf_status, stampIf_id, hid1, hst1]
      rw [if_neg (by simp [hsne])]
  · -- (C) unaffected steps
    intro hnaff
    have hnreach : s.id ∉ reachSet j.steps cid := fun hr =>
      hnaff (mem_affected_of_mem_reach hcroots hr)
    have hsne : s.id ≠ cid := fun he => hnaff (he ▸ hcidaff)
    have hid1 : t1.id = s.id := by rw [ht1, if_neg hnaff]
    have ht1s : t1 = s := by rw [ht1, if_neg hnaff]
    refine ⟨?_, ?_, ?_⟩
    · rw [promote_status, stampIf_status, stampIf_id, hid1]
      rw [if_neg (by simp [hsne]), ht1s]
    · rw [promote_path, stampIf_path, ht1s]
    · intro hs_ne
      have hfalse : (t1.id == decision.id) = false := by
        rw [hid1, hdid]
        simp [hs_ne]
      rw [hfalse]
      simp only [Bool.false_eq_true, if_false]
      rw [hid1, if_neg (by simp [hsne])]
      exact ht1s
  · -- (D) metadata stamp on the decision step
    intro hsid
    have hid1 : t1.id = s.id := by
      rw [ht1]
      by_cases h1 : s.id ∈ affectedIds j.steps (chooseRoots j.steps decision)
      · by_cases h2 : s.id ∈ reachSet j.steps cid <;> simp [h1, h2]
      · simp [h1]
    have hmeta1 : t1.metadata = s.metadata := by
      rw [ht1]
      by_cases h1 : s.id ∈ affectedIds j.steps (chooseRoots j.steps decision)
      · by_cases h2 : s.id ∈ reachSet j.steps cid <;> simp [h1, h2]
      · simp [h1]
    have htrue : (t1.id == decision.id) = true := by
      rw [hid1, hsid, hdid]
      simp
    rw [promote_metadata, if_pos htrue, stampMeta_metadata, hmeta1]

/-- If `choose_path` succeeds, the decision step id resolved. -/
theorem choose_path_ok_decision {now : Nat} {j : GoalJourney} {sid cid : String}
    {j2 : GoalJourney} (h : choose_path now j sid cid = Except.ok j2) :
    ∃ d, stepById j.steps sid = some d := by
  cases hd : stepById j.steps sid with
  | none =>
    simp only [choose_path, hd] at h
    exact (Except.noConfusion h)
  | some d => exact ⟨d, rfl⟩

/-! ### C1 — choose-path rejection with no mutation -/

/-- C1: when the request addresses real steps of the journey (and step ids
are unique, as the data model requires), `choose_path` fails with
InvalidChoice — returning an error and therefore leaving the journey value
untouched and unpersisted — whenever fewer than 2 branch roots resolve, or
the requested id is not among the roots, or some step reachable from a root
is IN_PROGRESS or COMPLETED. -/
theorem C1_choose_path_invalid_choice (now : Nat) (j : GoalJourney) (sid cid : String)
    (decision chosen : GoalStep)
    (hnd : (j.steps.map (fun s => s.id)).Nodup)
    (hdec : stepById j.steps sid = some decision)
    (hch : stepById j.steps cid = some chosen)
    (hjid : chosen.journey_id = j.id)
    (hcond : (chooseRoots j.steps decision).length < 2
      ∨ cid ∉ chooseRoots j.steps decision
      ∨ ∃ s ∈ j.steps, s.id ∈ affectedIds j.steps (chooseRoots j.steps decision)
          ∧ (s.status = StepStatus.inProgress ∨ s.status = StepStatus.completed)) :
    choose_path now j sid cid = Except.error JourneyError.invalidChoice := by
  simp only [choose_path, hdec, hch]
  rw [if_neg (by simp [hjid])]
  by_cases h2 : (chooseRoots j.steps decision).length < 2
  · rw [if_pos h2]
  · rw [if_neg h2]
    by_cases h3 : ¬ (cid ∈ chooseRoots j.steps decision)
    · rw [if_pos h3]
    · rw [if_neg h3]
      rcases hcond with hc | hc | ⟨s, hsmem, hsaff, hsbad⟩
      · exact absurd hc h2
      · exact absurd (not_not.mp h3) hc
      · have hany : (affectedIds j.steps (chooseRoots j.steps decision)).any (fun sid2 =>
            match stepById j.steps sid2 with
            | some st => st.status == StepStatus.inProgress || st.status == StepStatus.completed
            | none => false) = true := by
          rw [List.any_eq_true]
          refine ⟨s.id, hsaff, ?_⟩
          rw [stepById_mem_nodup hnd hsmem]
          rcases hsbad with hb | hb <;> simp [hb]
        rw [if_pos hany]

/-- C1 witness: a decision step with neither alternatives nor children (zero
roots resolve), so the request is rejected as InvalidChoice. -/
theorem C1_witness :
    choose_path 0 exNoRoots "D" "D" = Except.error JourneyError.invalidChoice :=
  C1_choose_path_invalid_choice 0 exNoRoots "D" "D"
    (mkStep "D" 0 StepStatus.available PathType.main [] [])
    (mkStep "D" 0 StepStatus.available PathType.main [] [])
    (by decide) rfl rfl rfl (Or.inl (by decide))

/-! ### C2 — effect of a successful choose-path -/

/-- C2 counterexample: on the diamond journey `exDiamond` (decision step `D`
already COMPLETED, options `B`, `C`, and `X` reachable from both roots),
choosing `B` succeeds, yet: `X` is reachable from the non-chosen root `C`
but ends `MAIN` (the claim demands ALTERNATIVE/ALTERNATIVE); `B` was
ALTERNATIVE but ends `AVAILABLE`, not `LOCKED`; and `D` — reachable from no
root — is changed (its metadata gains `selected_path_step_id`). -/
theorem C2_counterexample :
    choose_path 7 exDiamond "D" "B" =
      Except.ok (okOr exDiamond (choose_path 7 exDiamond "D" "B"))
    ∧ (stepById exDiamond.steps "D").map (fun d => chooseRoots exDiamond.steps d) =
        some ["B", "C"]
    ∧ "X" ∈ reachSet exDiamond.steps "C"
    ∧ ((okOr exDiamond (choose_path 7 exDiamond "D" "B")).steps.map
        (fun s => (s.id, s.path_type, s.status, s.metadata)) =
      [("D", PathType.main, StepStatus.completed,
         some [("selected_path_step_id", MetaVal.str "B")]),
       ("B", PathType.main, StepStatus.available, none),
       ("C", PathType.alternative, StepStatus.alternative, none),
       ("X", PathType.main, StepStatus.locked, none)]) :=
  ⟨rfl, rfl, by decide, rfl⟩

/-- C2 (amended): after a successful `choose-path`, every step reachable from
the chosen root ends `path_type=MAIN` with status ALTERNATIVE→LOCKED and
otherwise preserved — except that the chosen root itself ends AVAILABLE when
the decision step was already COMPLETED and the root was LOCKED or
ALTERNATIVE; every affected step not reachable from the chosen root ends
`path_type=ALTERNATIVE`, `status=ALTERNATIVE`; a step reachable from no root
keeps its status and path type and is fully unchanged unless it is the
decision step itself, whose metadata gains `selected_path_step_id`. -/
theorem C2_choose_path_effect (now : Nat) (j : GoalJourney) (sid cid : String)
    (j2 : GoalJourney) (decision : GoalStep)
    (hdec : stepById j.steps sid = some decision)
    (h : choose_path now j sid cid = Except.ok j2) :
    j2.steps.length = j.steps.length
    ∧ ∀ (i : Nat) (s s2 : GoalStep), j.steps.get? i = some s → j2.steps.get? i = some s2 →
      (s.id ∈ reachSet j.steps cid →
        s2.path_type = PathType.main
        ∧ s2.status =
            (if decision.status = StepStatus.completed ∧ s.id = cid
                ∧ (s.status = StepStatus.locked ∨ s.status = StepStatus.alternative)
             then StepStatus.available
             else if s.status = StepStatus.alternative then StepStatus.locked else s.status))
      ∧ (s.id ∉ reachSet j.steps cid →
          s.id ∈ affectedIds j.steps (chooseRoots j.steps decision) →
          s2.path_type = PathType.alternative ∧ s2.status = StepStatus.alternative)
      ∧ (s.id ∉ affectedIds j.steps (chooseRoots j.steps decision) →
          s2.status = s.status ∧ s2.path_type = s.path_type ∧ (s.id ≠ sid → s2 = s))
      ∧ (s.id = sid →
          s2.metadata = some (dictInsert (s.metadata.getD [])
            "selected_path_step_id" (MetaVal.str cid))) :=
  choose_path_core now j sid cid j2 decision hdec h

/-- C2 witness: `C2_choose_path_effect` applied to the plain two-option
journey `exTwoOptions`, on which choosing `B` succeeds. -/
theorem C2_witness :
    (okOr exTwoOptions (choose_path 3 exTwoOptions "D" "B")).steps.length =
      exTwoOptions.steps.length :=
  (C2_choose_path_effect 3 exTwoOptions "D" "B"
    (okOr exTwoOptions (choose_path 3 exTwoOptions "D" "B"))
    (mkStep "D" 0 StepStatus.available PathType.main [] ["B", "C"]) rfl rfl).1

/-! ### C6 — the ALTERNATIVE-status invariant -/

/-- C6 counterexample: `exAltOnly` satisfies the invariant, yet the set-status
operation happily moves its ALTERNATIVE-typed step straight to IN_PROGRESS —
the engine does not enforce the invariant. -/
theorem C6_counterexample :
    altInvariant exAltOnly = true
    ∧ update_step_status 1 exAltOnly "A" StepStatus.inProgress none =
        Except.ok (okOr exAltOnly (update_step_status 1 exAltOnly "A" StepStatus.inProgress none))
    ∧ altInvariant (okOr exAltOnly (update_step_status 1 exAltOnly "A" StepStatus.inProgress none))
        = false :=
  ⟨rfl, rfl, rfl⟩

/-- C6 (amended): the no-IN_PROGRESS/COMPLETED-on-ALTERNATIVE invariant is
not enforced by the engine: set-status (and generator adjustments) can put an
ALTERNATIVE-typed step into IN_PROGRESS or COMPLETED directly; the invariant
IS preserved by choose-path, title edits and note appends. -/
theorem C6_invariant_preservation :
    (∀ (now : Nat) (j : GoalJourney) (sid cid : String) (j2 : GoalJourney),
      altInvariant j = true → choose_path now j sid cid = Except.ok j2 →
      altInvariant j2 = true)
    ∧ (∀ (now : Nat) (j : GoalJourney) (sid t : String) (j2 : GoalJourney),
      altInvariant j = true → update_step_title now j sid t = Except.ok j2 →
      altInvariant j2 = true)
    ∧ (∀ (now : Nat) (j : GoalJourney) (sid note : String) (j2 : GoalJourney),
      altInvariant j = true → add_step_note now j sid note = Except.ok j2 →
      altInvariant j2 = true) := by
  refine ⟨?_, ?_, ?_⟩
  · intro now j sid cid j2 hinv h
    obtain ⟨decision, hdec⟩ := choose_path_ok_decision h
    obtain ⟨hlen, hall⟩ := choose_path_core now j sid cid j2 decision hdec h
    rw [altInvariant] at hinv ⊢
    rw [List.all_eq_true] at hinv ⊢
    intro s2 hs2mem
    obtain ⟨i, hget⟩ := List.mem_iff_get?.mp hs2mem
    obtain ⟨s, hs⟩ : ∃ s, j.steps.get? i = some s := by
      cases hq : j.steps.get? i with
      | none =>
        rw [List.get?_eq_none] at hq
        obtain ⟨hlt, -⟩ := List.get?_eq_some.mp hget
        rw [hlen] at hlt
        omega
      | some s => exact ⟨s, rfl⟩
    have H := hall i s s2 hs hget
    by_cases hin : s.id ∈ reachSet j.steps cid
    · have hA := H.1 hin
      simp [hA.1]
    · by_cases haff : s.id ∈ affectedIds j.steps (chooseRoots j.steps decision)
      · have hB := H.2.1 hin haff
        simp [hB.2]
      · have hC := H.2.2.1 haff
        have hsmem : s ∈ j.steps := List.get?_mem hs
        have hsinv := hinv s hsmem
        rw [hC.1, hC.2.1]
        exact hsinv
  · intro now j sid t j2 hinv h
    simp only [update_step_title] at h
    cases hf : j.steps.find? (fun s => s.id == sid) with
    | none =>
      rw [hf] at h
      exact (Except.noConfusion h)
    | some step =>
      rw [hf] at h
      injection h with h
      subst h
      rw [altInvariant] at hinv ⊢
      rw [List.all_eq_true] at hinv ⊢
      intro x hx
      simp only [] at hx
      obtain ⟨s, hsmem, hxeq⟩ := List.mem_map.mp hx
      subst hxeq
      have hstep_mem : step ∈ j.steps := List.mem_of_find?_eq_some hf
      by_cases hid : (s.id == sid) = true
      · rw [if_pos hid]
        have := hinv step hstep_mem
        simpa using this
      · rw [if_neg hid]
        exact hinv s hsmem
  · intro now j sid note j2 hinv h
    simp only [add_step_note] at h
    cases hf : j.steps.find? (fun s => s.id == sid) with
    | none =>
      rw [hf] at h
      exact (Except.noConfusion h)
    | some step =>
      rw [hf] at h
      injection h with h
      subst h
      rw [altInvariant] at hinv ⊢
      rw [List.all_eq_true] at hinv ⊢
      intro x hx
      simp only [] at hx
      obtain ⟨s, hsmem, hxeq⟩ := List.mem_map.mp hx
      subst hxeq
      have hstep_mem : step ∈ j.steps := List.mem_of_find?_eq_some hf
      by_cases hid : (s.id == sid) = true
      · rw [if_pos hid]
        have := hinv step hstep_mem
        simpa using this
      · rw [if_neg hid]
        exact hinv s hsmem

/-- C6 witness: `C6_invariant_preservation` applied to the successful
choose-path on `exTwoOptions` (invariant before, invariant after). -/
theorem C6_witness :
    altInvariant (okOr exTwoOptions (choose_path 3 exTwoOptions "D" "B")) = true :=
  C6_invariant_preservation.1 3 exTwoOptions "D" "B"
    (okOr exTwoOptions (choose_path 3 exTwoOptions "D" "B")) rfl rfl

/-! ### C10 — diamond tie-break -/

/-- C10 counterexample: in `exRootDiamond` the chosen root `B` is itself
reachable from the other root `C` (a diamond on the root), the decision step
is already COMPLETED, and `B` was ALTERNATIVE — after choosing `B` it ends
MAIN but with status AVAILABLE, not the LOCKED the claim promises for a
previously-ALTERNATIVE diamond step. -/
theorem C10_counterexample :
    choose_path 7 exRootDiamond "D" "B" =
      Except.ok (okOr exRootDiamond (choose_path 7 exRootDiamond "D" "B"))
    ∧ "B" ∈ reachSet exRootDiamond.steps "B"
    ∧ "B" ∈ reachSet exRootDiamond.steps "C"
    ∧ (stepById exRootDiamond.steps "D").map (fun d => chooseRoots exRootDiamond.steps d) =
        some ["B", "C"]
    ∧ (stepById exRootDiamond.steps "B").map (fun s => s.status) =
        some StepStatus.alternative
    ∧ ((okOr exRootDiamond (choose_path 7 exRootDiamond "D" "B")).steps.map
        (fun s => (s.id, s.path_type, s.status)) =
      [("D", PathType.main, StepStatus.completed),
       ("B", PathType.main, StepStatus.available),
       ("C", PathType.alternative, StepStatus.alternative)]) :=
  ⟨rfl, by decide, by decide, rfl, rfl, rfl⟩

/-- C10 (amended): on every successful choose-path, a step reachable both
from the chosen root and from some other root is classified with the chosen
branch: it ends `path_type=MAIN` — never ALTERNATIVE — independent of the
order in which the roots are declared; its status is promoted
ALTERNATIVE→LOCKED and otherwise preserved, except that when the step is the
chosen root itself and the decision step is already COMPLETED, a LOCKED or
ALTERNATIVE status becomes AVAILABLE. -/
theorem C10_diamond_tiebreak (now : Nat) (j : GoalJourney) (sid cid : String)
    (j2 : GoalJourney) (decision : GoalStep) (i : Nat) (s s2 : GoalStep) (r : String)
    (hdec : stepById j.steps sid = some decision)
    (h : choose_path now j sid cid = Except.ok j2)
    (hs : j.steps.get? i = some s) (hs2 : j2.steps.get? i = some s2)
    (hchosen : s.id ∈ reachSet j.steps cid)
    (hr : r ∈ chooseRoots j.steps decision) (hrne : r ≠ cid)
    (hother : s.id ∈ reachSet j.steps r) :
    s2.path_type = PathType.main
    ∧ s2.path_type ≠ PathType.alternative
    ∧ s2.status =
        (if decision.status = StepStatus.completed ∧ s.id = cid
            ∧ (s.status = StepStatus.locked ∨ s.status = StepStatus.alternative)
         then StepStatus.available
         else if s.status = StepStatus.alternative then StepStatus.locked else s.status) := by
  have H := ((choose_path_core now j sid cid j2 decision hdec h).2 i s s2 hs hs2).1 hchosen
  refine ⟨H.1, ?_, H.2⟩
  rw [H.1]
  intro hcon
  cases hcon

/-- C10 witness: `C10_diamond_tiebreak` on `exRootDiamond`, at the chosen
root `B` (position 1), which is also reachable from the root `C`. -/
theorem C10_witness :
    ({ mkStep "B" 1 StepStatus.alternative PathType.alternative ["D", "C"] [] with
       path_type := PathType.main, status := StepStatus.available } : GoalStep).path_type =
      PathType.main :=
  (C10_diamond_tiebreak 7 exRootDiamond "D" "B"
    (okOr exRootDiamond (choose_path 7 exRootDiamond "D" "B"))
    (mkStep "D" 0 StepStatus.completed PathType.main [] ["B", "C"]) 1
    (mkStep "B" 1 StepStatus.alternative PathType.alternative ["D", "C"] [])
    ({ mkStep "B" 1 StepStatus.alternative PathType.alternative ["D", "C"] [] with
       path_type := PathType.main, status := StepStatus.available }) "C"
    rfl rfl rfl rfl (by decide) (by decide) (by decide) (by decide)).1

/-! ### C3 — completing a step unlocks exactly the LOCKED immediate successor -/

theorem orderedInsert_map (f : GoalStep → GoalStep) (a : GoalStep) :
    ∀ (l : List GoalStep), (f a).order_index = a.order_index →
      (∀ b ∈ l, (f b).order_index = b.order_index) →
      List.orderedInsert (fun x y => x.order_index ≤ y.order_index) (f a) (l.map f) =
        (List.orderedInsert (fun x y => x.order_index ≤ y.order_index) a l).map f
  | [], _, _ => rfl
  | b :: t, ha, hl => by
    simp only [List.map, List.orderedInsert]
    by_cases hab : a.order_index ≤ b.order_index
    · rw [if_pos (by rw [ha, hl b (List.mem_cons_self b t)]; exact hab), if_pos hab]
      rfl
    · rw [if_neg (by rw [ha, hl b (List.mem_cons_self b t)]; exact hab), if_neg hab]
      simp only [List.map]
      rw [orderedInsert_map f a t ha (fun c hc => hl c (List.mem_cons_of_mem _ hc))]

theorem insertionSort_map (f : GoalStep → GoalStep) :
    ∀ (l : List GoalStep), (∀ b ∈ l, (f b).order_index = b.order_index) →
      List.insertionSort (fun x y => x.order_index ≤ y.order_index) (l.map f) =
        (List.insertionSort (fun x y => x.order_index ≤ y.order_index) l).map f
  | [], _ => rfl
  | a :: t, hl => by
    simp only [List.map, List.insertionSort]
    rw [insertionSort_map f t (fun c hc => hl c (List.mem_cons_of_mem _ hc))]
    exact orderedInsert_map f a _ (hl a (List.mem_cons_self a t))
      (fun c hc => hl c (List.mem_cons_of_mem _
        ((List.perm_insertionSort _ t).mem_iff.mp hc)))

theorem findNextOf_map (sid : String) (f : GoalStep → GoalStep)
    (hf : ∀ s, (f s).id = s.id) :
    ∀ (l : List GoalStep), findNextOf sid (l.map f) = (findNextOf sid l).map f
  | [] => rfl
  | [_] => rfl
  | a :: b :: t => by
    simp only [List.map, findNextOf]
    by_cases ha : (a.id == sid) = true
    · rw [if_pos (by rw [hf a]; exact ha), if_pos ha]
      rfl
    · rw [if_neg (by rw [hf a]; exact ha), if_neg ha]
      exact findNextOf_map sid f hf (b :: t)

theorem findNextOf_ne (sid : String) :
    ∀ (l : List GoalStep), ((l.map (fun s => s.id)).Nodup) →
      ∀ nxt, findNextOf sid l = some nxt → nxt.id ≠ sid
  | [], _, nxt, h => by simp [findNextOf] at h
  | [_], _, nxt, h => by simp [findNextOf] at h
  | a :: b :: t, hnd, nxt, h => by
    simp only [findNextOf] at h
    by_cases ha : (a.id == sid) = true
    · rw [if_pos ha] at h
      injection h with h
      subst h
      have ha2 : a.id = sid := by simpa using ha
      intro hbs
      exact (List.nodup_cons.mp hnd).1
        (List.mem_map.mpr ⟨b, List.mem_cons_self _ _, by show b.id = a.id; rw [hbs, ha2]⟩)
    · rw [if_neg ha] at h
      exact findNextOf_ne sid (b :: t) (List.nodup_cons.mp hnd).2 nxt h

theorem findNextOf_mem (sid : String) :
    ∀ (l : List GoalStep) (nxt : GoalStep), findNextOf sid l = some nxt → nxt ∈ l
  | [], nxt, h => by simp [findNextOf] at h
  | [_], nxt, h => by simp [findNextOf] at h
  | a :: b :: t, nxt, h => by
    simp only [findNextOf] at h
    by_cases ha : (a.id == sid) = true
    · rw [if_pos ha] at h
      injection h with h
      subst h
      exact List.mem_cons_of_mem _ (List.mem_cons_self _ _)
    · rw [if_neg ha] at h
      exact List.mem_cons_of_mem _ (findNextOf_mem sid (b :: t) nxt h)

theorem updateStepFields_id (now : Nat) (ns : StepStatus) (note : Option String)
    (step : GoalStep) : (updateStepFields now ns note step).id = step.id := rfl

theorem updateStepFields_order (now : Nat) (ns : StepStatus) (note : Option String)
    (step : GoalStep) : (updateStepFields now ns note step).order_index = step.order_index := rfl

theorem updateStepFields_path (now : Nat) (ns : StepStatus) (note : Option String)
    (step : GoalStep) : (updateStepFields now ns note step).path_type = step.path_type := rfl

theorem updateStepFields_status (now : Nat) (ns : StepStatus) (note : Option String)
    (step : GoalStep) : (updateStepFields now ns note step).status = ns := rfl

/-- Success inversion for completing a step: the target resolved to `step`,
and the resulting step list is the one-step rebuild followed by the
conditional unlock of the next LOCKED main-path step. -/
theorem update_complete_ok_inv (now : Nat) (j : GoalJourney) (sid : String)
    (note : Option String) (j2 : GoalJourney)
    (h : update_step_status now j sid StepStatus.completed note = Except.ok j2) :
    ∃ (step : GoalStep),
      j.steps.find? (fun s => s.id == sid) = some step
      ∧ j2.steps =
        (match findNextOf sid (sortSteps ((j.steps.map (fun s =>
            if s.id == sid then updateStepFields now StepStatus.completed note step else s)).filter
            (fun s => s.is_on_main_path))) with
         | some nxt =>
           if nxt.status == StepStatus.locked then
             (j.steps.map (fun s =>
                 if s.id == sid then updateStepFields now StepStatus.completed note step else s)).map
               (fun s => if s.id == nxt.id then { nxt with status := StepStatus.available } else s)
           else j.steps.map (fun s =>
             if s.id == sid then updateStepFields now StepStatus.completed note step else s)
         | none => j.steps.map (fun s =>
             if s.id == sid then updateStepFields now StepStatus.completed note step else s)) := by
  simp only [update_step_status] at h
  cases hf : j.steps.find? (fun s => s.id == sid) with
  | none =>
    rw [hf] at h
    exact (Except.noConfusion h)
  | some step =>
    simp only [hf] at h
    injection h with h5
    refine ⟨step, rfl, ?_⟩
    rw [← h5, update_journey_progress_steps]
    rw [if_pos (by decide : (StepStatus.completed == StepStatus.completed) = true)]

/-- C3: when the set-status operation completes step `i` (unique ids, as the
data model requires): in the ordered main-path sequence, if an immediate
successor of `i` exists and is LOCKED it becomes AVAILABLE and is otherwise
byte-for-byte unchanged; a successor in any other status is untouched; and no
step other than `i` and that immediate successor changes at all. -/
theorem C3_unlock_next (now : Nat) (j : GoalJourney) (sid : String) (note : Option String)
    (j2 : GoalJourney)
    (hnd : (j.steps.map (fun s => s.id)).Nodup)
    (h : update_step_status now j sid StepStatus.completed note = Except.ok j2) :
    j2.steps.length = j.steps.length
    ∧ ∀ (i : Nat) (s s2 : GoalStep), j.steps.get? i = some s → j2.steps.get? i = some s2 →
      (s.id = sid → s2.status = StepStatus.completed)
      ∧ (s.id ≠ sid →
          (∀ nxt, findNextOf sid (sortSteps (j.steps.filter (fun t => t.is_on_main_path)))
              = some nxt → s.id = nxt.id →
            (s.status = StepStatus.locked → s2 = { s with status := StepStatus.available })
            ∧ (s.status ≠ StepStatus.locked → s2 = s))
          ∧ ((∀ nxt, findNextOf sid (sortSteps (j.steps.filter (fun t => t.is_on_main_path)))
              = some nxt → s.id ≠ nxt.id) → s2 = s)) := by
  obtain ⟨step, hf, hsteps2⟩ := update_complete_ok_inv now j sid note j2 h
  have hstep_id : step.id = sid := by simpa using List.find?_some hf
  have hstep_mem : step ∈ j.steps := List.mem_of_find?_eq_some hf
  have hkey : ∀ s ∈ j.steps, s.id = sid → s = step := fun s hs hse =>
    List.inj_on_of_nodup_map hnd hs hstep_mem (by rw [hse, hstep_id])
  set us : GoalStep := updateStepFields now StepStatus.completed note step with hus
  have hf1_id : ∀ s : GoalStep, ((if s.id == sid then us else s) : GoalStep).id = s.id := by
    intro s
    by_cases hb : (s.id == sid) = true
    · have hse : s.id = sid := by simpa using hb
      rw [if_pos hb, hus, updateStepFields_id, hstep_id, hse]
    · rw [if_neg hb]
  have hf1_oi : ∀ s ∈ j.steps,
      ((if s.id == sid then us else s) : GoalStep).order_index = s.order_index := by
    intro s hs
    by_cases hb : (s.id == sid) = true
    · rw [if_pos hb, hus, updateStepFields_order, hkey s hs (by simpa using hb)]
    · rw [if_neg hb]
  have hf1_P : ∀ s ∈ j.steps,
      ((if s.id == sid then us else s) : GoalStep).is_on_main_path = s.is_on_main_path := by
    intro s hs
    by_cases hb : (s.id == sid) = true
    · rw [if_pos hb]
      unfold GoalStep.is_on_main_path
      rw [hus, updateStepFields_path, hkey s hs (by simpa using hb)]
    · rw [if_neg hb]
  have hfilter : ((j.steps.map (fun s => if s.id == sid then us else s)).filter
      (fun s => s.is_on_main_path)) =
      ((j.steps.filter (fun s => s.is_on_main_path)).map (fun s => if s.id == sid then us else s)) := by
    rw [List.filter_map]
    congr 1
    exact List.filter_congr (fun x hx => by
      show ((if x.id == sid then us else x) : GoalStep).is_on_main_path = x.is_on_main_path
      exact hf1_P x hx)
  have hsort : sortSteps ((j.steps.filter (fun s => s.is_on_main_path)).map
      (fun s => if s.id == sid then us else s)) =
      (sortSteps (j.steps.filter (fun s => s.is_on_main_path))).map
      (fun s => if s.id == sid then us else s) := by
    unfold sortSteps
    exact insertionSort_map _ _ (fun b hb => hf1_oi b (List.mem_filter.mp hb).1)
  have hnext : findNextOf sid ((sortSteps (j.steps.filter (fun s => s.is_on_main_path))).map
      (fun s => if s.id == sid then us else s)) =
      (findNextOf sid (sortSteps (j.steps.filter (fun s => s.is_on_main_path)))).map
      (fun s => if s.id == sid then us else s) :=
    findNextOf_map sid _ hf1_id _
  rw [hfilter, hsort, hnext] at hsteps2
  have hnd_filter : (((j.steps.filter (fun s => s.is_on_main_path)).map (fun s => s.id)).Nodup) :=
    List.Nodup.sublist (List.Sublist.map (fun s => s.id) (List.filter_sublist j.steps)) hnd
  have hnd_sorted : (((sortSteps (j.steps.filter (fun s => s.is_on_main_path))).map
      (fun s => s.id)).Nodup) := by
    have hperm : List.Perm (sortSteps (j.steps.filter (fun s => s.is_on_main_path)))
        (j.steps.filter (fun s => s.is_on_main_path)) := List.perm_insertionSort _ _
    exact ((hperm.map (fun s => s.id)).nodup_iff).mpr hnd_filter
  cases hnx : findNextOf sid (sortSteps (j.steps.filter (fun t => t.is_on_main_path))) with
  | none =>
    rw [hnx] at hsteps2
    simp only [Option.map_none'] at hsteps2
    refine ⟨by rw [hsteps2, List.length_map], ?_⟩
    intro i s s2 hs hs2
    rw [hsteps2, List.get?_map, hs, Option.map_some'] at hs2
    injection hs2 with hs2
    subst hs2
    refine ⟨?_, ?_⟩
    · intro hse
      have hf1s : ((if s.id == sid then us else s) : GoalStep) = us := if_pos (by simp [hse])
      rw [hf1s, hus, updateStepFields_status]
    · intro hsne
      have hf1s : ((if s.id == sid then us else s) : GoalStep) = s := if_neg (by simp [hsne])
      rw [hf1s]
      refine ⟨?_, fun _ => rfl⟩
      intro nxt hq
      exact (Option.noConfusion hq)
  | some nxt =>
    rw [hnx] at hsteps2
    simp only [Option.map_some'] at hsteps2
    have hnxt_ne : nxt.id ≠ sid := findNextOf_ne sid _ hnd_sorted nxt hnx
    have hfnxt : ((if nxt.id == sid then us else nxt) : GoalStep) = nxt :=
      if_neg (by simp [hnxt_ne])
    rw [hfnxt] at hsteps2
    have hnxt_mem : nxt ∈ j.steps := by
      have h1 := findNextOf_mem sid _ nxt hnx
      have h2 : nxt ∈ j.steps.filter (fun s => s.is_on_main_path) :=
        (List.perm_insertionSort (fun a b => a.order_index ≤ b.order_index)
          (j.steps.filter (fun s => s.is_on_main_path))).mem_iff.mp h1
      exact (List.mem_filter.mp h2).1
    by_cases hlock : (nxt.status == StepStatus.locked) = true
    · have hlock2 : nxt.status = StepStatus.locked := by simpa using hlock
      rw [if_pos hlock] at hsteps2
      refine ⟨by rw [hsteps2, List.length_map, List.length_map], ?_⟩
      intro i s s2 hs hs2
      rw [hsteps2, List.get?_map, List.get?_map, hs, Option.map_some', Option.map_some'] at hs2
      injection hs2 with hs2
      subst hs2
      refine ⟨?_, ?_⟩
      · intro hse
        have hf1s : ((if s.id == sid then us else s) : GoalStep) = us := if_pos (by simp [hse])
        rw [hf1s]
        have hug : (us.id == nxt.id) = false := by
          rw [hus, updateStepFields_id, hstep_id]
          simp [Ne.symm hnxt_ne]
        rw [hug]
        simp only [Bool.false_eq_true, if_false]
        rw [hus, updateStepFields_status]
      · intro hsne
        have hf1s : ((if s.id == sid then us else s) : GoalStep) = s := if_neg (by simp [hsne])
        rw [hf1s]
        refine ⟨?_, ?_⟩
        · intro nxt2 hq hsnxt
          injection hq with hq
          subst hq
          have hseq : s = nxt :=
            List.inj_on_of_nodup_map hnd (List.get?_mem hs) hnxt_mem hsnxt
          refine ⟨?_, ?_⟩
          · intro _
            rw [if_pos (by simp [hsnxt])]
            rw [hseq]
          · intro hcon
            exact absurd (hseq ▸ hlock2) (by rw [hseq] at hcon ⊢; exact fun he => hcon (by rw [he]))
        · intro hno
          have hne := hno nxt rfl
          rw [if_neg (by simp [hne])]
    · have hnlock : nxt.status ≠ StepStatus.locked := fun he => hlock (by simp [he])
      rw [if_neg hlock] at hsteps2
      refine ⟨by rw [hsteps2, List.length_map], ?_⟩
      intro i s s2 hs hs2
      rw [hsteps2, List.get?_map, hs, Option.map_some'] at hs2
      injection hs2 with hs2
      subst hs2
      refine ⟨?_, ?_⟩
      · intro hse
        have hf1s : ((if s.id == sid then us else s) : GoalStep) = us := if_pos (by simp [hse])
        rw [hf1s, hus, updateStepFields_status]
      · intro hsne
        have hf1s : ((if s.id == sid then us else s) : GoalStep) = s := if_neg (by simp [hsne])
        rw [hf1s]
        refine ⟨?_, fun _ => rfl⟩
        intro nxt2 hq hsnxt
        injection hq with hq
        subst hq
        have hseq : s = nxt :=
          List.inj_on_of_nodup_map hnd (List.get?_mem hs) hnxt_mem hsnxt
        refine ⟨?_, fun _ => rfl⟩
        intro hcon
        exact absurd (hseq ▸ hcon) hnlock

/-- C3 witness: completing step `A` of `exTwoMain` (successor `B` LOCKED)
through `C3_unlock_next`. -/
theorem C3_witness :
    (okOr exTwoMain (update_step_status 2 exTwoMain "A" StepStatus.completed none)).steps.length =
      exTwoMain.steps.length :=
  (C3_unlock_next 2 exTwoMain "A" none
    (okOr exTwoMain (update_step_status 2 exTwoMain "A" StepStatus.completed none))
    (by decide) rfl).1

end ProBuddy
